import Mathlib

set_option maxHeartbeats 1600000

/-!
Verification of the content assembly and cross-reference resolution engine of
the JQv2 draft system.  The definitions below are a shallow embedding of
`draft_system/scripts/universal_markdown_parser.py`,
`draft_system/scripts/universal_preview_generator.py` and
`draft_system/scripts/format_validator.py`.  Text is modelled as `List Char`
(the Python code works on `str`); the regular-expression operations used by the
scripts are implemented as explicit scanners with the same matching semantics.
File-system access (folder layout, yaml configuration) is an external
collaborator of those scripts and is modelled as data passed in.
-/

abbrev Str := List Char

def lbrace : Char := Char.ofNat 123

def rbrace : Char := Char.ofNat 125

/-- Python `\s` over ASCII: space, tab, newline, carriage return, form feed,
vertical tab. -/
def isPySpace (c : Char) : Bool :=
  c = ' ' || c = '\t' || c = '\n' || c = '\r' || c = Char.ofNat 12 || c = Char.ofNat 11

/-- Python `str.strip()`. -/
def pyStrip (l : Str) : Str :=
  ((l.dropWhile isPySpace).reverse.dropWhile isPySpace).reverse

/-- Decimal digit character. -/
def digitChar (n : Nat) : Char := Char.ofNat (48 + n)

def natStrAux : Nat → Nat → Str
  | 0, _ => []
  | fuel + 1, n =>
    if n < 10 then [digitChar n] else natStrAux fuel (n / 10) ++ [digitChar (n % 10)]

/-- Python `str(n)` for a natural number (decimal). -/
def natStr (n : Nat) : Str := natStrAux (n + 1) n

/-- Python `dict` lookup (`d.get(k)`). -/
def dictLookup {α : Type} (k : Str) : List (Str × α) → Option α
  | [] => none
  | (k', v) :: rest => if k' = k then some v else dictLookup k rest

/-- Python `d[k] = v`: replace in place, or append a new binding. -/
def dictInsert {α : Type} (k : Str) (v : α) : List (Str × α) → List (Str × α)
  | [] => [(k, v)]
  | (k', v') :: rest => if k' = k then (k, v) :: rest else (k', v') :: dictInsert k v rest

/-- Match a literal pattern at the head of the text, returning the remainder. -/
def dropLit : Str → Str → Option Str
  | [], l => some l
  | _ :: _, [] => none
  | p :: ps, c :: l => if c = p then dropLit ps l else none

/-- One pass of `re.sub`: at each position try the matcher; on success emit the
replacement (plus side-channel messages, modelling the Python replacement
callbacks that append to `self.errors`) and continue after the match, otherwise
keep the character and move one position right.  Fuel keeps the recursion
structural; every matcher used below consumes at least one character, so the
input length is sufficient fuel. -/
def reSubFuel (m : Str → Option ((Str × List Str) × Str)) : Nat → Str → Str × List Str
  | 0, l => (l, [])
  | _ + 1, [] => ([], [])
  | fuel + 1, c :: l =>
    match m (c :: l) with
    | some ((r, es), rem) =>
      let p := reSubFuel m fuel rem
      (r ++ p.1, es ++ p.2)
    | none =>
      let p := reSubFuel m fuel l
      (c :: p.1, p.2)

def reSubE (m : Str → Option ((Str × List Str) × Str)) (l : Str) : Str × List Str :=
  reSubFuel m l.length l

/-- Plain substitution with no side messages. -/
def reSub (m : Str → Option (Str × Str)) (l : Str) : Str :=
  (reSubE (fun t => (m t).map (fun p => ((p.1, ([] : List Str)), p.2))) l).1

def notRB (c : Char) : Bool := c ≠ rbrace

def notColon (c : Char) : Bool := c ≠ ':'

def labelPat : Str := [lbrace, lbrace, 'L', 'A', 'B', 'E', 'L', ':']

def refPat : Str := [lbrace, lbrace, 'R', 'E', 'F', ':']

def rangePat : Str := [lbrace, lbrace, 'R', 'E', 'F', '_', 'R', 'A', 'N', 'G', 'E', ':']

/-- Matcher for regex `\x7b\x7bLABEL:([^\x7d]+)\x7d\x7d`: captured name and
remainder after the token. -/
def matchLabelTok (l : Str) : Option (Str × Str) :=
  match dropLit labelPat l with
  | none => none
  | some rest =>
    match rest.takeWhile notRB, rest.dropWhile notRB with
    | n₀ :: ns, c₁ :: c₂ :: rem =>
      if c₁ = rbrace ∧ c₂ = rbrace then some (n₀ :: ns, rem) else none
    | _, _ => none

/-- Matcher for regex `\x7b\x7bREF:([^\x7d]+)\x7d\x7d`. -/
def matchRefNameTok (l : Str) : Option (Str × Str) :=
  match dropLit refPat l with
  | none => none
  | some rest =>
    match rest.takeWhile notRB, rest.dropWhile notRB with
    | n₀ :: ns, c₁ :: c₂ :: rem =>
      if c₁ = rbrace ∧ c₂ = rbrace then some (n₀ :: ns, rem) else none
    | _, _ => none

/-- Matcher for regex `\x7b\x7bREF_RANGE:([^:]+):([^\x7d]+)\x7d\x7d`: both
captured labels and the remainder after the token. -/
def matchRangeNamesTok (l : Str) : Option ((Str × Str) × Str) :=
  match dropLit rangePat l with
  | none => none
  | some rest =>
    match rest.takeWhile notColon, rest.dropWhile notColon with
    | a₀ :: as_, c₀ :: r2 =>
      if c₀ = ':' then
        match r2.takeWhile notRB, r2.dropWhile notRB with
        | b₀ :: bs, c₁ :: c₂ :: rem =>
          if c₁ = rbrace ∧ c₂ = rbrace then some ((a₀ :: as_, b₀ :: bs), rem) else none
        | _, _ => none
      else none
    | _, _ => none

/-- Non-greedy scan for the closing `**` of regex `\*\*(.*?)\*\*`: returns the
(shortest) span before the first `**` and the remainder after it; `.` does not
cross a newline. -/
def findDoubleStar : Str → Option (Str × Str)
  | '*' :: '*' :: rest => some ([], rest)
  | '\n' :: _ => none
  | c :: rest => (findDoubleStar rest).map (fun p => (c :: p.1, p.2))
  | [] => none

/-- Non-greedy scan for the closing `*` of regex `\*(.*?)\*`. -/
def findSingleStar : Str → Option (Str × Str)
  | '*' :: rest => some ([], rest)
  | '\n' :: _ => none
  | c :: rest => (findSingleStar rest).map (fun p => (c :: p.1, p.2))
  | [] => none

/-- Matcher for `re.sub(r'\*\*(.*?)\*\*', r'<strong>\1</strong>', text)`. -/
def matchBoldTok (l : Str) : Option (Str × Str) :=
  match l with
  | '*' :: '*' :: rest =>
    (findDoubleStar rest).map
      (fun p => ("<strong>".data ++ p.1 ++ "</strong>".data, p.2))
  | _ => none

/-- Matcher for `re.sub(r'\*(.*?)\*', r'<em>\1</em>', text)`. -/
def matchEmTok (l : Str) : Option (Str × Str) :=
  match l with
  | '*' :: rest =>
    (findSingleStar rest).map (fun p => ("<em>".data ++ p.1 ++ "</em>".data, p.2))
  | _ => none

/-- Matcher for `re.sub(r'\n\s*([a-z])\.\s+', r'<br/>   \1. ', text)`. -/
def matchBreakTok (l : Str) : Option (Str × Str) :=
  match l with
  | '\n' :: rest =>
    match rest.dropWhile isPySpace with
    | c :: '.' :: r2 =>
      if c.isLower then
        match r2 with
        | s :: _ =>
          if isPySpace s then
            some ("<br/>   ".data ++ [c] ++ ". ".data, r2.dropWhile isPySpace)
          else none
        | [] => none
      else none
    | _ => none
  | _ => none

/-- `UniversalMarkdownParser._format_legal_text`: bold, italic, then in-text
list line breaks. -/
def formatLegalText (t : Str) : Str :=
  reSub matchBreakTok (reSub matchEmTok (reSub matchBoldTok t))

/-- `re.findall`: collect all non-overlapping matches left to right. -/
def findAllTok (m : Str → Option (Str × Str)) : Nat → Str → List Str
  | 0, _ => []
  | _ + 1, [] => []
  | fuel + 1, c :: l =>
    match m (c :: l) with
    | some (n, rem) => n :: findAllTok m fuel rem
    | none => findAllTok m fuel l

/-- `UniversalMarkdownParser._extract_labels`. -/
def extractLabels (t : Str) : List Str := findAllTok matchLabelTok t.length t

/-- `UniversalMarkdownParser._clean_content`: remove the label markers, then
strip. -/
def cleanContent (t : Str) : Str :=
  pyStrip (reSub (fun l => (matchLabelTok l).map (fun p => (([] : Str), p.2))) t)

/-- Tail of regex `\*\*(\d+)\.\*\*\s*(.*)` after the leading `**`: the digits,
then `.**`, then the whitespace-stripped rest of the line. -/
def matchDigitsDotStars (l : Str) : Option (Str × Str) :=
  match l.takeWhile Char.isDigit, l.dropWhile Char.isDigit with
  | d :: ds, '.' :: '*' :: '*' :: rem => some (d :: ds, rem.dropWhile isPySpace)
  | _, _ => none

/-- `UniversalMarkdownParser._match_numbered_paragraph`: `**N.**` gives
(`N`, content); otherwise `**PN.**` gives (`PN`, content). -/
def matchNumberedParagraph (l : Str) : Option (Str × Str) :=
  match l with
  | '*' :: '*' :: rest =>
    match matchDigitsDotStars rest with
    | some p => some p
    | none =>
      match rest with
      | 'P' :: rest2 =>
        match matchDigitsDotStars rest2 with
        | some (ds, rem) => some ('P' :: ds, rem)
        | none => none
      | _ => none
  | _ => none

/-- Regex `^\s*[a-z]\.\s+` on an already-stripped line (the parser strips each
line before matching, so the leading `\s*` is empty). -/
def isListItem (l : Str) : Bool :=
  match l with
  | c :: '.' :: s :: _ => c.isLower && isPySpace s
  | _ => false

/-- `re.sub(r'^\s*[a-z]\.\s+', '', line)` on a stripped line. -/
def listItemContent (l : Str) : Str :=
  match l with
  | _ :: '.' :: rest => rest.dropWhile isPySpace
  | _ => l

/-- `ParsedParagraph` from `universal_markdown_parser.py`. -/
structure ParsedParagraph where
  number : Nat
  original_number : Option Str
  content : Str
  labels : List Str
  is_numbered : Bool
deriving DecidableEq

/-- A section without nested subsections.  `_parse_markdown_file` only ever
creates one level of nesting (file-level section plus its subsections), so the
recursive `subsections` field of the Python dataclass is modelled by giving the
file-level `ParsedSection` a list of these flat subsections. -/
structure Subsection where
  title : Str
  level : Nat
  paragraphs : List ParsedParagraph
  lists : List (List Str)
  document_order : Nat
deriving DecidableEq

/-- `ParsedSection` as built for one markdown file. -/
structure ParsedSection where
  title : Str
  level : Nat
  paragraphs : List ParsedParagraph
  subsections : List Subsection
  lists : List (List Str)
  document_order : Nat
deriving DecidableEq

/-- The mutable fields of `UniversalMarkdownParser` (set in `__init__`, shared
across calls on one instance). -/
structure ParserState where
  counter : Nat
  labels : List (Str × Nat)
  errors : List Str
  warnings : List Str
deriving DecidableEq

/-- `UniversalMarkdownParser.__init__` parser state: counter 1, empty labels,
errors and warnings. -/
def initParserState : ParserState :=
  { counter := 1, labels := [], errors := [], warnings := [] }

/-- The per-file local variables of `_parse_markdown_file`. -/
structure FileState where
  sec : ParsedSection
  cur : Option Subsection
  current_list : List Str
  in_list : Bool
deriving DecidableEq

def initFileState (order : Nat) : FileState :=
  { sec := { title := [], level := 1, paragraphs := [], subsections := [],
             lists := [], document_order := order },
    cur := none, current_list := [], in_list := false }

/-- f-string `f"Header level \x7bheader_level\x7d exceeds maximum (H3) in
\x7bmd_file.name\x7d:\x7bline_num\x7d"`. -/
def headerErrMsg (fname : Str) (lineNum lvl : Nat) : Str :=
  "Header level ".data ++ natStr lvl ++ " exceeds maximum (H3) in ".data ++
    fname ++ [':'] ++ natStr lineNum

/-- Append a paragraph to the current subsection if one is open, else to the
file-level section. -/
def addPara (p : ParsedParagraph) (fs : FileState) : FileState :=
  match fs.cur with
  | some cs => { fs with cur := some { cs with paragraphs := cs.paragraphs ++ [p] } }
  | none => { fs with sec := { fs.sec with paragraphs := fs.sec.paragraphs ++ [p] } }

/-- The "End of list" block: flush a non-empty accumulated list into the
current subsection or the section, clear the accumulator. -/
def closeList (fs : FileState) : FileState :=
  let fs' :=
    if fs.current_list ≠ [] then
      match fs.cur with
      | some cs => { fs with cur := some { cs with lists := cs.lists ++ [fs.current_list] } }
      | none => { fs with sec := { fs.sec with lists := fs.sec.lists ++ [fs.current_list] } }
    else fs
  { fs' with current_list := [], in_list := false }

/-- The header branch for a stripped line beginning with `#`. -/
def processHeader (fname : Str) (lineNum : Nat) (l : Str) (ps : ParserState)
    (fs : FileState) : ParserState × FileState :=
  let lvl := (l.takeWhile (fun c => c = '#')).length
  let text := pyStrip (l.dropWhile (fun c => c = '#'))
  if 3 < lvl then
    ({ ps with errors := ps.errors ++ [headerErrMsg fname lineNum lvl] }, fs)
  else if lvl = 1 ∧ fs.sec.title = [] then
    (ps, { fs with sec := { fs.sec with title := text, level := 1 } })
  else if 1 < lvl then
    let subs :=
      match fs.cur with
      | some cs => if cs.paragraphs ≠ [] then fs.sec.subsections ++ [cs] else fs.sec.subsections
      | none => fs.sec.subsections
    (ps, { fs with sec := { fs.sec with subsections := subs },
                   cur := some { title := text, level := lvl, paragraphs := [],
                                 lists := [], document_order := fs.sec.document_order } })
  else (ps, fs)

/-- The numbered-paragraph branch. -/
def processMarker (orig content₀ : Str) (ps : ParserState) (fs : FileState) :
    ParserState × FileState :=
  let labs := extractLabels content₀
  let fmt := formatLegalText (cleanContent content₀)
  let para : ParsedParagraph :=
    { number := ps.counter, original_number := some orig, content := fmt,
      labels := labs, is_numbered := true }
  let labels2 := labs.foldl (fun d lab => dictInsert lab ps.counter d) ps.labels
  ({ ps with counter := ps.counter + 1, labels := labels2 }, addPara para fs)

/-- One iteration of the line loop of `_parse_markdown_file`. -/
def processLine (fname : Str) (lineNum : Nat) (rawLine : Str)
    (st : ParserState × FileState) : ParserState × FileState :=
  let ps := st.1
  let fs := st.2
  let l := pyStrip rawLine
  if l = [] then st
  else if l.head? = some '#' then processHeader fname lineNum l ps fs
  else
    match matchNumberedParagraph l with
    | some (orig, content₀) => processMarker orig content₀ ps fs
    | none =>
      if isListItem l then
        let cl := if fs.in_list then fs.current_list else []
        (ps, { fs with in_list := true,
                       current_list := cl ++ [formatLegalText (listItemContent l)] })
      else
        let fs1 := if fs.in_list then closeList fs else fs
        (ps, addPara { number := 0, original_number := none,
                       content := formatLegalText l, labels := [],
                       is_numbered := false } fs1)

def processLines (fname : Str) : Nat → List Str → ParserState × FileState →
    ParserState × FileState
  | _, [], st => st
  | idx, l :: ls, st => processLines fname (idx + 1) ls (processLine fname idx l st)

/-- The end-of-file fixups of `_parse_markdown_file`.  In the Python code the
final subsection is appended by reference and the trailing list is then added
to the (possibly already appended) subsection object, so a trailing list is
kept only when the subsection was appended; if the open subsection has neither
paragraphs nor lists, the trailing list is lost with it. -/
def sectionOfFs (fs : FileState) : ParsedSection :=
  match fs.cur with
  | some cs =>
    let keep := cs.paragraphs ≠ [] ∨ cs.lists ≠ []
    let cs2 := if fs.current_list ≠ [] then { cs with lists := cs.lists ++ [fs.current_list] }
               else cs
    if keep then { fs.sec with subsections := fs.sec.subsections ++ [cs2] } else fs.sec
  | none =>
    if fs.current_list ≠ [] then { fs.sec with lists := fs.sec.lists ++ [fs.current_list] }
    else fs.sec

/-- `_parse_markdown_file`: a file whose content strips to nothing yields no
section and leaves the parser state untouched. -/
def parseFile (fname : Str) (lines : List Str) (order : Nat) (ps : ParserState) :
    ParserState × Option ParsedSection :=
  if lines.all (fun l => pyStrip l = []) then (ps, none)
  else
    let r := processLines fname 1 lines (ps, initFileState order)
    (r.1, some (sectionOfFs r.2))

/-- The file loop of `parse_document_folder` (files already sorted by name by
the collaborator). -/
def parseFilesAux : List (Str × List Str) → Nat → ParserState →
    ParserState × List ParsedSection
  | [], _, ps => (ps, [])
  | (nm, ls) :: rest, order, ps =>
    let r := parseFile nm ls order ps
    let r2 := parseFilesAux rest (order + 1) r.1
    (r2.1, match r.2 with | some s => s :: r2.2 | none => r2.2)

def strUpper (l : Str) : Str := l.map Char.toUpper

/-- `UniversalMarkdownParser._validate_document_structure`: the document
specifications map a type name to its required section names. -/
def validateDocumentStructure (specs : List (Str × List Str)) (docType : Str)
    (sections : List ParsedSection) (ps : ParserState) : ParserState :=
  match dictLookup docType specs with
  | none => { ps with warnings := ps.warnings ++ ["Unknown document type: ".data ++ docType] }
  | some req =>
    req.foldl
      (fun p name =>
        let nm := strUpper name
        if ((sections.filter (fun s => s.title ≠ [])).map (fun s => strUpper s.title)).contains nm
        then p
        else { p with errors := p.errors ++ ["Missing required section: ".data ++ nm] })
      ps

/-- The result dictionary of `parse_document_folder` (metadata fields are the
collaborator's input and omitted). -/
structure ParseResult where
  sections : List ParsedSection
  labels : List (Str × Nat)
  errors : List Str
  warnings : List Str
  total_paragraphs : Nat
deriving DecidableEq

/-- `UniversalMarkdownParser.parse_document_folder`: parse every file in
order, validate the document structure, and read the result off the instance
state.  The instance state is threaded, not reset. -/
def parseDocumentFolder (specs : List (Str × List Str)) (docType : Str)
    (files : List (Str × List Str)) (ps : ParserState) : ParserState × ParseResult :=
  let r := parseFilesAux files 1 ps
  let ps2 := validateDocumentStructure specs docType r.2 r.1
  (ps2, { sections := r.2, labels := ps2.labels, errors := ps2.errors,
          warnings := ps2.warnings, total_paragraphs := ps2.counter - 1 })

def unresolvedRefMsg (n : Str) : Str := "Unresolved reference: ".data ++ n

def unresolvedRangeMsg (a b : Str) : Str :=
  "Unresolved reference range: ".data ++ a ++ [':'] ++ b

def refErrStr (n : Str) : Str := "[REF ERROR: ".data ++ n ++ [']']

def refErrRangeStr (a b : Str) : Str :=
  "[REF ERROR: ".data ++ a ++ [':'] ++ b ++ [']']

/-- Replacement outcome of `replace_range_ref`: substituted text and the error
messages appended by the callback. -/
def rangeOutcome (labels : List (Str × Nat)) (a b : Str) : Str × List Str :=
  match dictLookup a labels, dictLookup b labels with
  | some m, some k =>
    (if m = k then natStr m else natStr m ++ " through ".data ++ natStr k, [])
  | some _, none => (refErrRangeStr a b, [unresolvedRangeMsg a b])
  | none, _ => (refErrRangeStr a b, [unresolvedRangeMsg a b])

/-- Replacement outcome of `replace_single_ref`. -/
def refOutcome (labels : List (Str × Nat)) (n : Str) : Str × List Str :=
  match dictLookup n labels with
  | some k => (natStr k, [])
  | none => (refErrStr n, [unresolvedRefMsg n])

def matchRangeTok (labels : List (Str × Nat)) (l : Str) :
    Option ((Str × List Str) × Str) :=
  (matchRangeNamesTok l).map (fun p => (rangeOutcome labels p.1.1 p.1.2, p.2))

def matchRefTok (labels : List (Str × Nat)) (l : Str) :
    Option ((Str × List Str) × Str) :=
  (matchRefNameTok l).map (fun p => (refOutcome labels p.1, p.2))

/-- `UniversalMarkdownParser.resolve_cross_references`: range references are
substituted first, then single references; each unresolved reference appends
one error to the instance state. -/
def resolveCrossReferences (ps : ParserState) (t : Str) : ParserState × Str :=
  let r1 := reSubE (matchRangeTok ps.labels) t
  let r2 := reSubE (matchRefTok ps.labels) r1.1
  ({ ps with errors := ps.errors ++ r1.2 ++ r2.2 }, r2.1)

/-- `UniversalPreviewGenerator._format_legal_text`: label removal, bold,
italic, list line breaks, final strip. -/
def previewFormatLegalText (t : Str) : Str :=
  pyStrip (reSub matchBreakTok (reSub matchEmTok (reSub matchBoldTok
    (reSub (fun l => (matchLabelTok l).map (fun p => (([] : Str), p.2))) t))))

/-- The section dictionary built by `UniversalPreviewGenerator._parse_markdown_file`. -/
structure PreviewSection where
  title : Str
  paragraphs : List Str
  file_name : Str
deriving DecidableEq

/-- First `# `-prefixed raw line gives the title. -/
def previewTitle : List Str → Str
  | [] => []
  | l :: ls => if l.take 2 = ['#', ' '] then pyStrip (l.drop 2) else previewTitle ls

/-- One iteration of the preview paragraph loop: accumulate non-blank,
non-header lines into the current paragraph, joined by a single space; blank
lines and headers flush. -/
def previewStep (acc : List Str × Str) (rawLine : Str) : List Str × Str :=
  let l := pyStrip rawLine
  if l = [] then
    if acc.2 ≠ [] then (acc.1 ++ [previewFormatLegalText acc.2], []) else acc
  else if l.head? = some '#' then
    if acc.2 ≠ [] then (acc.1 ++ [previewFormatLegalText acc.2], []) else (acc.1, [])
  else if acc.2 ≠ [] then (acc.1, acc.2 ++ ' ' :: l)
  else (acc.1, l)

def previewParagraphs (lines : List Str) : List Str :=
  let r := lines.foldl previewStep ([], [])
  if r.2 ≠ [] then r.1 ++ [previewFormatLegalText r.2] else r.1

/-- `UniversalPreviewGenerator._parse_markdown_file`. -/
def previewParseFile (fname : Str) (lines : List Str) : Option PreviewSection :=
  if lines.all (fun l => pyStrip l = []) then none
  else some { title := previewTitle lines, paragraphs := previewParagraphs lines,
              file_name := fname }

/-- Substring test used in statements about raw reference tokens. -/
def containsSub (pat : Str) : Str → Bool
  | [] => (dropLit pat []).isSome
  | c :: r => (dropLit pat (c :: r)).isSome || containsSub pat r

/-- `ValidationError` from `format_validator.py` (severity is the literal
Python string). -/
structure ValidationError where
  file_path : Str
  line_number : Nat
  error_type : Str
  message : Str
  severity : Str
deriving DecidableEq

def sevError : Str := "error".data

def sevWarning : Str := "warning".data

/-- The effective validator configuration: validation level, the rule values
read from `validation_rules.yml` (with the code defaults materialized, e.g.
line length 120), and the known document types of
`document_type_specifications.yml`. -/
structure ValidatorConfig where
  strict : Bool
  level_name : Str
  line_length_max : Nat
  prohibited_words : List Str
  required_fields : List Str
  known_types : List Str
deriving DecidableEq

/-- A yaml metadata value: a scalar string or a nested mapping. -/
inductive MetaVal where
  | s (v : Str)
  | d (entries : List (Str × MetaVal))

/-- `_get_nested_value` walking one key. -/
def metaGet : MetaVal → List Str → Option MetaVal
  | v, [] => some v
  | MetaVal.d es, k :: ks =>
    match dictLookup k es with
    | some v => metaGet v ks
    | none => none
  | MetaVal.s _, _ :: _ => none

/-- Python truthiness of the value (missing, empty string and empty mapping
are falsy). -/
def metaTruthy : Option MetaVal → Bool
  | none => false
  | some (MetaVal.s []) => false
  | some (MetaVal.s (_ :: _)) => true
  | some (MetaVal.d []) => false
  | some (MetaVal.d (_ :: _)) => true

/-- `"a.b.c".split('.')`. -/
def splitDot : Str → List Str
  | [] => [[]]
  | c :: l =>
    match splitDot l with
    | x :: xs => if c = '.' then [] :: x :: xs else (c :: x) :: xs
    | [] => [[c]]

/-- `metadata.get('document_info', \x7b\x7d).get('type', 'unknown')` (a
non-string value would never be a known type; it is modelled as `unknown`). -/
def docTypeOf (m : MetaVal) : Str :=
  match metaGet m ["document_info".data, "type".data] with
  | some (MetaVal.s v) => v
  | _ => "unknown".data

/-- The document folder as handed to the validator by the file system
collaborator: which of the required subfolders exist, the parsed metadata and
the sorted markdown files. -/
structure FolderData where
  path : Str
  subfolders_present : List Str
  metadata : MetaVal
  md_files : List (Str × List Str)

def requiredSubfolders : List Str :=
  ["draft_content".data, "research".data, "exhibits".data,
   "reference_material".data, "case_documents".data]

/-- `_validate_folder_structure`. -/
def folderStructureIssues (cfg : ValidatorConfig) (f : FolderData) : List ValidationError :=
  (requiredSubfolders.map (fun sf =>
    if f.subfolders_present.contains sf then []
    else if cfg.strict then
      [{ file_path := f.path, line_number := 0, error_type := "folder_structure".data,
         message := "Missing required subfolder: ".data ++ sf, severity := sevError }]
    else
      [{ file_path := f.path, line_number := 0, error_type := "folder_structure".data,
         message := "Missing recommended subfolder: ".data ++ sf, severity := sevWarning }])).flatten

/-- `_validate_metadata`. -/
def metadataIssues (cfg : ValidatorConfig) (f : FolderData) : List ValidationError :=
  (cfg.required_fields.map (fun fieldPath =>
    if metaTruthy (metaGet f.metadata (splitDot fieldPath)) then []
    else
      [{ file_path := f.path ++ "/metadata.yml".data, line_number := 0,
         error_type := "metadata".data,
         message := "Missing required metadata field: ".data ++ fieldPath,
         severity := sevError }])).flatten

def isWordChar (c : Char) : Bool := c.isAlphanum || c = '_'

def boundaryBefore : Option Char → Bool
  | none => true
  | some c => !isWordChar c

/-- `\d+` then remainder. -/
def takeDigits1 (l : Str) : Option Str :=
  match l.takeWhile Char.isDigit with
  | [] => none
  | _ :: _ => some (l.dropWhile Char.isDigit)

/-- `\s+` then remainder. -/
def takeSpaces1 (l : Str) : Option Str :=
  match l.takeWhile isPySpace with
  | [] => none
  | _ :: _ => some (l.dropWhile isPySpace)

/-- `[a-z]+` then remainder. -/
def takeLower1 (l : Str) : Option Str :=
  match l.takeWhile Char.isLower with
  | [] => none
  | _ :: _ => some (l.dropWhile Char.isLower)

/-- Regex `\d+\s+U\.S\.C\.\s+§\s+\d+` anchored at the head, returning the
remainder after the match. -/
def matchStatuteAt (l : Str) : Option Str :=
  (takeDigits1 l).bind fun r1 =>
  (takeSpaces1 r1).bind fun r2 =>
  (dropLit "U.S.C.".data r2).bind fun r3 =>
  (takeSpaces1 r3).bind fun r4 =>
  (dropLit "§".data r4).bind fun r5 =>
  (takeSpaces1 r5).bind fun r6 =>
  takeDigits1 r6

/-- Regex `[A-Z][a-z]+\s+v\.\s+[A-Z][a-z]+` anchored at the head. -/
def matchCaseAt (l : Str) : Option Str :=
  match l with
  | c :: r =>
    if c.isUpper then
      (takeLower1 r).bind fun r2 =>
      (takeSpaces1 r2).bind fun r3 =>
      (dropLit "v.".data r3).bind fun r4 =>
      (takeSpaces1 r4).bind fun r5 =>
      match r5 with
      | d :: r6 => if d.isUpper then takeLower1 r6 else none
      | [] => none
    else none
  | [] => none

/-- `re.search` of a `\b`-prefixed pattern: try every position, tracking the
previous character for the word boundary. -/
def searchBdry (m : Str → Option Str) : Option Char → Str → Bool
  | prev, [] => boundaryBefore prev && (m []).isSome
  | prev, c :: r =>
    (boundaryBefore prev && (m (c :: r)).isSome) || searchBdry m (some c) r

/-- A closing `**` reachable without crossing a newline (`.*\*\*`). -/
def findCloseBB : Str → Bool
  | '*' :: '*' :: _ => true
  | '\n' :: _ => false
  | _ :: r => findCloseBB r
  | [] => false

/-- A closing `*` reachable without crossing a newline (`.*\*`). -/
def findCloseB : Str → Bool
  | '*' :: _ => true
  | '\n' :: _ => false
  | _ :: r => findCloseB r
  | [] => false

/-- Inside `\*\*.*` … `.*\*\*`: scan (without crossing a newline) for a
boundary position where the statute pattern matches and a closing `**`
follows. -/
def scanInnerStat : Char → Str → Bool
  | _, [] => false
  | prev, c :: r =>
    (boundaryBefore (some prev) &&
      (match matchStatuteAt (c :: r) with
       | some rem => findCloseBB rem
       | none => false)) ||
    (if c = '\n' then false else scanInnerStat c r)

/-- `re.search(r'\*\*.*' + statute + r'.*\*\*', line)`. -/
def hasBoldWrappedStatute : Str → Bool
  | [] => false
  | '*' :: '*' :: r => scanInnerStat '*' ('*' :: r) || hasBoldWrappedStatute ('*' :: r)
  | _ :: r => hasBoldWrappedStatute r

/-- As `scanInnerStat`, for the italic-wrapped case-name pattern. -/
def scanInnerCase : Char → Str → Bool
  | _, [] => false
  | prev, c :: r =>
    (boundaryBefore (some prev) &&
      (match matchCaseAt (c :: r) with
       | some rem => findCloseB rem
       | none => false)) ||
    (if c = '\n' then false else scanInnerCase c r)

/-- `re.search(r'\*.*' + casePattern + r'.*\*', line)`. -/
def hasItalWrappedCase : Str → Bool
  | [] => false
  | '*' :: r => scanInnerCase '*' r || hasItalWrappedCase r
  | _ :: r => hasItalWrappedCase r

/-- `_validate_paragraph_numbering`. -/
def paragraphNumberingIssues (nm : Str) (i : Nat) (l : Str) : List ValidationError :=
  let stripped := pyStrip l
  let e1 :=
    match stripped with
    | c :: _ =>
      if c.isDigit ∧ (stripped.dropWhile Char.isDigit).head? = some '.' then
        [{ file_path := nm, line_number := i, error_type := "paragraph_numbering".data,
           message := "Paragraph numbers must be bold: **1.** not 1.".data,
           severity := sevError }]
      else []
    | [] => []
  let boldNumAt : Str → Option Str := fun t =>
    match t with
    | '*' :: '*' :: r =>
      (match r.takeWhile Char.isDigit, r.dropWhile Char.isDigit with
       | _ :: _, '.' :: '*' :: '*' :: rem => some rem
       | _, _ => none)
    | _ => none
  let starNumAt : Str → Option Str := fun t =>
    match t with
    | '*' :: r =>
      (match r.takeWhile Char.isDigit, r.dropWhile Char.isDigit with
       | _ :: _, '*' :: rem => some rem
       | _, _ => none)
    | _ => none
  let e2 :=
    if (List.range (l.length + 1)).any (fun k => (boldNumAt (l.drop k)).isSome) then []
    else if (List.range (l.length + 1)).any (fun k => (starNumAt (l.drop k)).isSome) then
      [{ file_path := nm, line_number := i, error_type := "paragraph_numbering".data,
         message := "Use double asterisks for bold: **1.** not *1*".data,
         severity := sevError }]
    else []
  e1 ++ e2

/-- `_validate_headers` (the header level is computed on the raw line, the
`#` test on the stripped line, as in the code). -/
def headerIssues (nm : Str) (i : Nat) (l : Str) : List ValidationError :=
  if (pyStrip l).head? = some '#' then
    let lvl := (l.takeWhile (fun c => c = '#')).length
    let txt := pyStrip (l.dropWhile (fun c => c = '#'))
    (if 3 < lvl then
      [{ file_path := nm, line_number := i, error_type := "headers".data,
         message := "Headers deeper than H3 (###) are not allowed (found H".data ++
           natStr lvl ++ [')'], severity := sevError }]
     else []) ++
    (match txt with
     | c :: _ =>
       if !c.isUpper then
         [{ file_path := nm, line_number := i, error_type := "headers".data,
            message := "Headers must start with uppercase letters".data,
            severity := sevWarning }]
       else []
     | [] => []) ++
    (if 80 < txt.length then
      [{ file_path := nm, line_number := i, error_type := "headers".data,
         message := "Header exceeds maximum length of 80 characters".data,
         severity := sevWarning }]
     else [])
  else []

/-- `_validate_legal_citations`. -/
def citationIssues (nm : Str) (i : Nat) (l : Str) : List ValidationError :=
  (if searchBdry matchStatuteAt none l && !hasBoldWrappedStatute l then
    [{ file_path := nm, line_number := i, error_type := "legal_citations".data,
       message := "Statutes must be bold: **15 U.S.C. § 1681n**".data,
       severity := sevError }]
   else []) ++
  (if searchBdry matchCaseAt none l && !hasItalWrappedCase l then
    [{ file_path := nm, line_number := i, error_type := "legal_citations".data,
       message := "Case names must be italic: *Smith v. Jones*".data,
       severity := sevWarning }]
   else [])

/-- Regex `^[a-z][a-z0-9_]*$`. -/
def validName (n : Str) : Bool :=
  match n with
  | c :: rest => c.isLower && rest.all (fun d => d.isLower || d.isDigit || d = '_')
  | [] => false

/-- `_validate_cross_references`. -/
def crossRefIssues (nm : Str) (i : Nat) (l : Str) : List ValidationError :=
  ((findAllTok matchLabelTok l.length l).map (fun lab =>
    if validName lab then []
    else
      [{ file_path := nm, line_number := i, error_type := "cross_references".data,
         message := "Label names must be lowercase with underscores: \x7b\x7bLABEL:".data ++
           lab ++ "\x7d\x7d".data, severity := sevError }])).flatten ++
  ((findAllTok matchRefNameTok l.length l).map (fun ref =>
    if validName ref then []
    else
      [{ file_path := nm, line_number := i, error_type := "cross_references".data,
         message := "Reference names must be lowercase with underscores: \x7b\x7bREF:".data ++
           ref ++ "\x7d\x7d".data, severity := sevError }])).flatten

/-- Case-insensitive literal match (the prohibited words are plain words). -/
def dropLitCI : Str → Str → Option Str
  | [], l => some l
  | _ :: _, [] => none
  | p :: ps, c :: l => if c.toLower = p.toLower then dropLitCI ps l else none

def boundaryAfterOK : Str → Bool
  | [] => true
  | c :: _ => !isWordChar c

/-- `re.search(r'\b' + word + r'\b', line, re.IGNORECASE)`, for words made of
word characters. -/
def searchWordCI (w : Str) : Option Char → Str → Bool
  | prev, [] =>
    boundaryBefore prev &&
      (match dropLitCI w [] with
       | some rem => boundaryAfterOK rem
       | none => false)
  | prev, c :: r =>
    (boundaryBefore prev &&
      (match dropLitCI w (c :: r) with
       | some rem => boundaryAfterOK rem
       | none => false)) ||
    searchWordCI w (some c) r

/-- `_check_prohibited_words`. -/
def prohibitedWordIssues (cfg : ValidatorConfig) (nm : Str) (i : Nat) (l : Str) :
    List ValidationError :=
  (cfg.prohibited_words.map (fun w =>
    if searchWordCI w none l then
      [{ file_path := nm, line_number := i, error_type := "language".data,
         message := "Avoid weak modifier: \x27".data ++ w ++ "\x27".data,
         severity := sevWarning }]
    else [])).flatten

/-- Line length check of `_validate_markdown_file`. -/
def lineLengthIssues (cfg : ValidatorConfig) (nm : Str) (i : Nat) (l : Str) :
    List ValidationError :=
  if cfg.line_length_max < l.length then
    [{ file_path := nm, line_number := i, error_type := "line_length".data,
       message := "Line exceeds maximum length (".data ++ natStr l.length ++
         " characters)".data, severity := sevWarning }]
  else []

/-- All issues of one line, in the order the checks run. -/
def lineIssues (cfg : ValidatorConfig) (nm : Str) (i : Nat) (l : Str) :
    List ValidationError :=
  lineLengthIssues cfg nm i l ++ paragraphNumberingIssues nm i l ++
    headerIssues nm i l ++ citationIssues nm i l ++ crossRefIssues nm i l ++
    prohibitedWordIssues cfg nm i l

/-- The accumulated issue list of a `FormatValidator` instance
(`self.errors`). -/
structure ValidatorState where
  errors : List ValidationError
deriving DecidableEq

def zipIdx : Nat → List Str → List (Nat × Str)
  | _, [] => []
  | i, l :: ls => (i, l) :: zipIdx (i + 1) ls

/-- `_validate_markdown_file`: every line is checked; all issues accumulate on
the instance. -/
def validateMarkdownFileSt (cfg : ValidatorConfig) (nm : Str) (lines : List Str)
    (st : ValidatorState) : ValidatorState :=
  (zipIdx 1 lines).foldl
    (fun s p => { errors := s.errors ++ lineIssues cfg nm p.1 p.2 }) st

def hasTwoDigitStem (nm : Str) : Bool :=
  match nm with
  | d1 :: d2 :: '_' :: _ => d1.isDigit && d2.isDigit
  | _ => false

/-- `FormatValidator._validate_document_structure`: only the file naming
convention is checked (and only for known document types). -/
def namingIssues (cfg : ValidatorConfig) (files : List (Str × List Str))
    (docType : Str) : List ValidationError :=
  if cfg.known_types.contains docType then
    (files.map (fun p =>
      if hasTwoDigitStem p.1 then []
      else
        [{ file_path := p.1, line_number := 0, error_type := "file_naming".data,
           message := "Files should use numbered prefixes: 01_, 02_, etc.".data,
           severity := sevWarning }])).flatten
  else []

/-- The validation report dictionary of `_generate_report`. -/
structure ValidationReport where
  is_valid : Bool
  total_issues : Nat
  errors : Nat
  warnings : Nat
  validation_level : Str
  issues : List ValidationError
deriving DecidableEq

def generateReport (cfg : ValidatorConfig) (es : List ValidationError) :
    ValidationReport :=
  { is_valid := (es.filter (fun e => e.severity = sevError)).isEmpty,
    total_issues := es.length,
    errors := (es.filter (fun e => e.severity = sevError)).length,
    warnings := (es.filter (fun e => e.severity = sevWarning)).length,
    validation_level := cfg.level_name,
    issues := es }

/-- `FormatValidator.validate_document_folder`: the instance issue list is
reset at the start of the call (`self.errors = []`), then folder structure,
metadata, every markdown file and the naming convention are validated and the
report is generated from the accumulated issues. -/
def validateDocumentFolder (cfg : ValidatorConfig) (st : ValidatorState)
    (f : FolderData) : ValidatorState × ValidationReport :=
  let st0 : ValidatorState := { errors := [] }
  let st1 : ValidatorState := { errors := st0.errors ++ folderStructureIssues cfg f }
  let st2 : ValidatorState := { errors := st1.errors ++ metadataIssues cfg f }
  let st3 := f.md_files.foldl (fun s p => validateMarkdownFileSt cfg p.1 p.2 s) st2
  let st4 : ValidatorState :=
    { errors := st3.errors ++ namingIssues cfg f.md_files (docTypeOf f.metadata) }
  (st4, generateReport cfg st4.errors)

/-- Paragraphs of a parsed file section in creation order: the file-level
paragraphs (all created before any subsection opened) followed by the
subsections' paragraphs in order. -/
def sectionParas (s : ParsedSection) : List ParsedParagraph :=
  s.paragraphs ++ (s.subsections.map Subsection.paragraphs).flatten

/-- All paragraphs of a parse result in fragment-then-within-fragment order. -/
def resultParas (r : ParseResult) : List ParsedParagraph :=
  (r.sections.map sectionParas).flatten

def numsOfPs (l : List ParsedParagraph) : List Nat :=
  (l.filter (fun p => p.is_numbered)).map (fun p => p.number)

/-- The assigned numbers of the explicitly numbered paragraphs, in
fragment-then-within-fragment order. -/
def resultNums (r : ParseResult) : List Nat := numsOfPs (resultParas r)

/-- Paragraphs accumulated in a file state, in creation order. -/
def fsParas (fs : FileState) : List ParsedParagraph :=
  fs.sec.paragraphs ++ (fs.sec.subsections.map Subsection.paragraphs).flatten ++
    (match fs.cur with
     | some cs => cs.paragraphs
     | none => [])

def fsNums (fs : FileState) : List Nat := numsOfPs (fsParas fs)

/-- Structural invariant of the line loop: before any subsection is opened,
none has been closed either. -/
def Jinv (fs : FileState) : Prop := fs.cur = none → fs.sec.subsections = []

/-- Whether a raw line is an explicitly numbered paragraph marker after
stripping. -/
def isMarkerLine (l : Str) : Bool := (matchNumberedParagraph (pyStrip l)).isSome

def markCnt (l : Str) : Nat := if isMarkerLine l then 1 else 0

def linesCnt (ls : List Str) : Nat := (ls.map markCnt).sum

/-- Numbered-marker lines of one file as counted by the paragraph counter
(an all-blank file is skipped before its lines are processed, and can contain
no marker lines). -/
def fileCnt (f : Str × List Str) : Nat :=
  if f.2.all (fun l => pyStrip l = []) then 0 else linesCnt f.2

def filesCnt (fs : List (Str × List Str)) : Nat := (fs.map fileCnt).sum

/-- Whether a raw line defines the label `x` (its stripped form is a numbered
marker whose content carries `\x7b\x7bLABEL:x\x7d\x7d`). -/
def definesLabel (x : Str) (l : Str) : Bool :=
  match matchNumberedParagraph (pyStrip l) with
  | some p => (extractLabels p.2).contains x
  | none => false

/-- The literal text `\x7b\x7bREF:n\x7d\x7d`. -/
def refTokOf (n : Str) : Str := refPat ++ n ++ [rbrace, rbrace]

/-- The literal text `\x7b\x7bREF_RANGE:a:b\x7d\x7d`. -/
def rangeTokOf (a b : Str) : Str := rangePat ++ a ++ [':'] ++ b ++ [rbrace, rbrace]

/-- Space-join of already-stripped lines, as built by the preview accumulator. -/
def spaceJoin : List Str → Str
  | [] => []
  | x :: xs => x ++ (xs.map (fun y => ' ' :: y)).flatten

theorem reSubFuel_congr (m : Str → Option ((Str × List Str) × Str))
    (hsh : ∀ l r rem, m l = some (r, rem) → rem.length < l.length) :
    ∀ f₁ f₂ l, l.length ≤ f₁ → l.length ≤ f₂ → reSubFuel m f₁ l = reSubFuel m f₂ l := by
  intro f₁
  induction f₁ with
  | zero =>
    intro f₂ l h1 h2
    have : l = [] := by
      cases l with
      | nil => rfl
      | cons c t => simp at h1
    subst this
    cases f₂ <;> rfl
  | succ f ih =>
    intro f₂ l h1 h2
    cases l with
    | nil => cases f₂ <;> rfl
    | cons c t =>
      cases f₂ with
      | zero => simp at h2
      | succ f₂' =>
        simp only [reSubFuel]
        cases hm : m (c :: t) with
        | none =>
          have := ih f₂' t (by simpa using h1) (by simpa using h2)
          simp [this]
        | some p =>
          obtain ⟨r, rem⟩ := p
          have hlt := hsh _ _ _ hm
          have := ih f₂' rem (by simp at h1 hlt ⊢; omega) (by simp at h2 hlt ⊢; omega)
          simp [this]

theorem reSubE_nil (m : Str → Option ((Str × List Str) × Str)) : reSubE m [] = ([], []) := rfl

theorem reSubE_cons_none (m : Str → Option ((Str × List Str) × Str)) (c : Char) (l : Str)
    (h : m (c :: l) = none) :
    reSubE m (c :: l) = ((c :: (reSubE m l).1), (reSubE m l).2) := by
  simp [reSubE, reSubFuel, h]

theorem reSubE_match (m : Str → Option ((Str × List Str) × Str))
    (hsh : ∀ l r rem, m l = some (r, rem) → rem.length < l.length)
    (l : Str) (r : Str) (es : List Str) (rem : Str) (h : m l = some ((r, es), rem)) :
    reSubE m l = (r ++ (reSubE m rem).1, es ++ (reSubE m rem).2) := by
  have hlt := hsh _ _ _ h
  cases l with
  | nil => simp at hlt
  | cons c t =>
    have hcong : reSubFuel m t.length rem = reSubFuel m rem.length rem := by
      apply reSubFuel_congr m hsh
      · simp at hlt; omega
      · exact le_refl _
    simp [reSubE, reSubFuel, h, hcong]

theorem reSubE_skip (m : Str → Option ((Str × List Str) × Str)) (trig : Char)
    (htrig : ∀ l, (m l).isSome → l.head? = some trig) :
    ∀ l : Str, trig ∉ l → reSubE m l = (l, []) := by
  intro l
  induction l with
  | nil => intro _; rfl
  | cons c t ih =>
    intro hl
    have hc : c ≠ trig := fun h => hl (h ▸ List.mem_cons_self c t)
    have hm : m (c :: t) = none := by
      cases hmm : m (c :: t) with
      | none => rfl
      | some p =>
        have := htrig (c :: t) (by simp [hmm])
        simp only [List.head?_cons, Option.some.injEq] at this
        exact absurd this hc
    have ht : trig ∉ t := fun h => hl (List.mem_cons_of_mem c h)
    rw [reSubE_cons_none m c t hm, ih ht]

theorem reSubE_prepend (m : Str → Option ((Str × List Str) × Str)) (trig : Char)
    (htrig : ∀ l, (m l).isSome → l.head? = some trig) :
    ∀ pre rest : Str, (∀ c ∈ pre, c ≠ trig) →
      reSubE m (pre ++ rest) = (pre ++ (reSubE m rest).1, (reSubE m rest).2) := by
  intro pre
  induction pre with
  | nil => intro rest _; simp
  | cons c t ih =>
    intro rest hpre
    have hm : m (c :: (t ++ rest)) = none := by
      cases hmm : m (c :: (t ++ rest)) with
      | none => rfl
      | some p =>
        have := htrig (c :: (t ++ rest)) (by simp [hmm])
        simp only [List.head?_cons, Option.some.injEq] at this
        exact absurd this (hpre c (List.mem_cons_self c t))
    have := ih rest (fun d hd => hpre d (List.mem_cons_of_mem c hd))
    rw [List.cons_append, reSubE_cons_none m _ _ hm, this]
    simp

theorem dropLit_self (p : Str) : ∀ x : Str, dropLit p (p ++ x) = some x := by
  induction p with
  | nil => intro x; rfl
  | cons c t ih => intro x; simp [dropLit, ih]

theorem dropLit_head (p : Char) (ps : Str) (l : Str) (r : Str)
    (h : dropLit (p :: ps) l = some r) : l.head? = some p := by
  cases l with
  | nil => simp [dropLit] at h
  | cons c t =>
    simp only [dropLit] at h
    by_cases hc : c = p
    · simp [hc]
    · simp [hc] at h

theorem dropLit_length (p : Str) : ∀ l r : Str, dropLit p l = some r →
    r.length + p.length = l.length := by
  induction p with
  | nil =>
    intro l r h
    simp [dropLit] at h
    simp [h]
  | cons c t ih =>
    intro l r h
    cases l with
    | nil => simp [dropLit] at h
    | cons d u =>
      simp only [dropLit] at h
      by_cases hd : d = c
      · simp [hd] at h
        have := ih u r h
        simp [this]
        omega
      · simp [hd] at h

theorem takeWhile_append_stop (p : Char → Bool) :
    ∀ (a : Str) (b : Char) (t : Str), (∀ c ∈ a, p c = true) → p b = false →
      (a ++ b :: t).takeWhile p = a ∧ (a ++ b :: t).dropWhile p = b :: t := by
  intro a
  induction a with
  | nil =>
    intro b t _ hb
    simp [List.takeWhile, List.dropWhile, hb]
  | cons c u ih =>
    intro b t ha hb
    have hc : p c = true := ha c (List.mem_cons_self c u)
    have := ih b t (fun d hd => ha d (List.mem_cons_of_mem c hd)) hb
    simp [List.takeWhile, List.dropWhile, hc, this.1, this.2]

theorem matchRefNameTok_token (n : Str) (post : Str) (hne : n ≠ [])
    (hrb : rbrace ∉ n) : matchRefNameTok (refTokOf n ++ post) = some (n, post) := by
  have h1 : refTokOf n ++ post = refPat ++ (n ++ rbrace :: rbrace :: post) := by
    simp [refTokOf]
  have htw := takeWhile_append_stop notRB n rbrace (rbrace :: post)
    (fun c hc => by simp [notRB]; exact fun h => hrb (h ▸ hc)) (by simp [notRB])
  rw [h1]
  simp only [matchRefNameTok, dropLit_self, htw.1, htw.2]
  cases n with
  | nil => exact absurd rfl hne
  | cons c t => simp

theorem matchRangeNamesTok_token (a b : Str) (post : Str) (hane : a ≠ [])
    (hacolon : ':' ∉ a) (hbne : b ≠ []) (hbrb : rbrace ∉ b) :
    matchRangeNamesTok (rangeTokOf a b ++ post) = some ((a, b), post) := by
  have h1 : rangeTokOf a b ++ post = rangePat ++ (a ++ ':' :: (b ++ rbrace :: rbrace :: post)) := by
    simp [rangeTokOf]
  have htwa := takeWhile_append_stop notColon a ':' (b ++ rbrace :: rbrace :: post)
    (fun c hc => by simp [notColon]; exact fun h => hacolon (h ▸ hc)) (by simp [notColon])
  have htwb := takeWhile_append_stop notRB b rbrace (rbrace :: post)
    (fun c hc => by simp [notRB]; exact fun h => hbrb (h ▸ hc)) (by simp [notRB])
  rw [h1]
  simp only [matchRangeNamesTok, dropLit_self, htwa.1, htwa.2]
  cases a with
  | nil => exact absurd rfl hane
  | cons c t =>
    simp only [↓reduceIte, List.append_eq]
    have hb1 : b ++ rbrace :: rbrace :: post = b ++ rbrace :: (rbrace :: post) := rfl
    simp only [htwb.1, htwb.2]
    cases b with
    | nil => exact absurd rfl hbne
    | cons d u => simp

theorem matchRefNameTok_head (l : Str) (h : (matchRefNameTok l).isSome = true) :
    l.head? = some lbrace := by
  simp only [matchRefNameTok] at h
  cases hd : dropLit refPat l with
  | none => rw [hd] at h; simp at h
  | some rest => exact dropLit_head lbrace _ l rest hd

theorem matchRangeNamesTok_head (l : Str) (h : (matchRangeNamesTok l).isSome = true) :
    l.head? = some lbrace := by
  simp only [matchRangeNamesTok] at h
  cases hd : dropLit rangePat l with
  | none => rw [hd] at h; simp at h
  | some rest => exact dropLit_head lbrace _ l rest hd

theorem matchLabelTok_head (l : Str) (h : (matchLabelTok l).isSome = true) :
    l.head? = some lbrace := by
  simp only [matchLabelTok] at h
  cases hd : dropLit labelPat l with
  | none => rw [hd] at h; simp at h
  | some rest => exact dropLit_head lbrace _ l rest hd

theorem matchBoldTok_head (l : Str) (h : (matchBoldTok l).isSome = true) :
    l.head? = some '*' := by
  cases l with
  | nil => simp [matchBoldTok] at h
  | cons c t =>
    simp only [matchBoldTok] at h
    split at h
    · rename_i rest heq
      injection heq with h1 _
      simp [h1]
    · simp at h

theorem matchEmTok_head (l : Str) (h : (matchEmTok l).isSome = true) :
    l.head? = some '*' := by
  cases l with
  | nil => simp [matchEmTok] at h
  | cons c t =>
    simp only [matchEmTok] at h
    split at h
    · rename_i rest heq
      injection heq with h1 _
      simp [h1]
    · simp at h

theorem matchBreakTok_head (l : Str) (h : (matchBreakTok l).isSome = true) :
    l.head? = some '\n' := by
  cases l with
  | nil => simp [matchBreakTok] at h
  | cons c t =>
    simp only [matchBreakTok] at h
    split at h
    · rename_i rest heq
      injection heq with h1 _
      simp [h1]
    · simp at h

theorem dropWhile_length_le (p : Char → Bool) (l : Str) :
    (l.dropWhile p).length ≤ l.length := by
  have := congrArg List.length (List.takeWhile_append_dropWhile (p := p) (l := l))
  simp only [List.length_append] at this
  omega

theorem matchRefNameTok_shrink (l : Str) (n rem : Str)
    (h : matchRefNameTok l = some (n, rem)) : rem.length < l.length := by
  simp only [matchRefNameTok] at h
  split at h
  next => simp at h
  next rest hd =>
    have hlen := dropLit_length refPat l rest hd
    have hdw := dropWhile_length_le notRB rest
    split at h
    next n₀ ns c₁ c₂ rem' htw hdr =>
      split at h
      · simp only [Option.some.injEq, Prod.mk.injEq] at h
        rw [hdr] at hdw
        simp at hdw
        simp [refPat] at hlen
        have h2 : rem' = rem := h.2
        subst h2
        omega
      · simp at h
    next => simp at h

theorem matchRangeNamesTok_shrink (l : Str) (ab : Str × Str) (rem : Str)
    (h : matchRangeNamesTok l = some (ab, rem)) : rem.length < l.length := by
  simp only [matchRangeNamesTok] at h
  split at h
  next => simp at h
  next rest hd =>
    have hlen := dropLit_length rangePat l rest hd
    have hdw := dropWhile_length_le notColon rest
    split at h
    next a₀ as_ c₀ r2 htw hdr =>
      split at h
      · have hdw2 := dropWhile_length_le notRB r2
        split at h
        next b₀ bs c₁ c₂ rem' htw2 hdr2 =>
          split at h
          · simp only [Option.some.injEq, Prod.mk.injEq] at h
            rw [hdr] at hdw
            rw [hdr2] at hdw2
            simp at hdw hdw2
            simp [rangePat] at hlen
            have h2 : rem' = rem := h.2
            subst h2
            omega
          · simp at h
        next => simp at h
      · simp at h
    next => simp at h

theorem matchRangeNamesTok_at_refTok (x : Str) :
    matchRangeNamesTok (lbrace :: lbrace :: 'R' :: 'E' :: 'F' :: ':' :: x) = none := rfl

theorem matchRangeNamesTok_at_second (x : Str) :
    matchRangeNamesTok (lbrace :: 'R' :: x) = none := rfl

theorem natStrAux_digits (fuel : Nat) : ∀ n c, c ∈ natStrAux fuel n → c.isDigit = true := by
  induction fuel with
  | zero => intro n c hc; simp [natStrAux] at hc
  | succ f ih =>
    intro n c hc
    simp only [natStrAux] at hc
    by_cases hn : n < 10
    · simp [hn] at hc
      subst hc
      simp only [digitChar]
      interval_cases n <;> decide
    · simp [hn] at hc
      cases hc with
      | inl h => exact ih _ _ h
      | inr h =>
        subst h
        simp only [digitChar]
        have : n % 10 < 10 := Nat.mod_lt _ (by norm_num)
        interval_cases hm : n % 10 <;> decide

theorem natStr_no_lbrace (n : Nat) : lbrace ∉ natStr n := by
  intro hc
  exact absurd (natStrAux_digits (n + 1) n lbrace hc) (by decide)

theorem matchRefTok_head (labels : List (Str × Nat)) (l : Str)
    (h : (matchRefTok labels l).isSome = true) : l.head? = some lbrace := by
  apply matchRefNameTok_head
  simp only [matchRefTok] at h
  cases hm : matchRefNameTok l with
  | none => rw [hm] at h; simp at h
  | some p => simp

theorem matchRangeTok_head (labels : List (Str × Nat)) (l : Str)
    (h : (matchRangeTok labels l).isSome = true) : l.head? = some lbrace := by
  apply matchRangeNamesTok_head
  simp only [matchRangeTok] at h
  cases hm : matchRangeNamesTok l with
  | none => rw [hm] at h; simp at h
  | some p => simp

theorem matchRefTok_shrink (labels : List (Str × Nat)) (l : Str) (r : Str × List Str)
    (rem : Str) (h : matchRefTok labels l = some (r, rem)) : rem.length < l.length := by
  simp only [matchRefTok] at h
  cases hm : matchRefNameTok l with
  | none => rw [hm] at h; simp at h
  | some p =>
    rw [hm] at h
    simp at h
    exact h.2 ▸ matchRefNameTok_shrink l p.1 p.2 hm

theorem matchRangeTok_shrink (labels : List (Str × Nat)) (l : Str) (r : Str × List Str)
    (rem : Str) (h : matchRangeTok labels l = some (r, rem)) : rem.length < l.length := by
  simp only [matchRangeTok] at h
  cases hm : matchRangeNamesTok l with
  | none => rw [hm] at h; simp at h
  | some p =>
    rw [hm] at h
    simp at h
    exact h.2 ▸ matchRangeNamesTok_shrink l p.1 p.2 hm

theorem reSubE_rangePass_skip_refTok (labels : List (Str × Nat)) (pre n post : Str)
    (hpre : lbrace ∉ pre) (hn : lbrace ∉ n) (hpost : lbrace ∉ post) :
    reSubE (matchRangeTok labels) (pre ++ refTokOf n ++ post) =
      (pre ++ refTokOf n ++ post, []) := by
  have htrig : ∀ l, ((matchRangeTok labels) l).isSome = true → l.head? = some lbrace :=
    matchRangeTok_head labels
  have hshape : refTokOf n ++ post =
      lbrace :: lbrace :: ('R' :: 'E' :: 'F' :: ':' :: (n ++ rbrace :: rbrace :: post)) := by
    simp [refTokOf, refPat]
  rw [List.append_assoc, reSubE_prepend _ lbrace htrig pre _
    (fun c hc h => hpre (h ▸ hc)), hshape]
  have hm1 : matchRangeTok labels
      (lbrace :: lbrace :: 'R' :: 'E' :: 'F' :: ':' :: (n ++ rbrace :: rbrace :: post)) = none := by
    simp [matchRangeTok, matchRangeNamesTok_at_refTok]
  have hm2 : matchRangeTok labels
      (lbrace :: 'R' :: 'E' :: 'F' :: ':' :: (n ++ rbrace :: rbrace :: post)) = none := by
    simp [matchRangeTok, matchRangeNamesTok_at_second]
  rw [reSubE_cons_none _ _ _ hm1, reSubE_cons_none _ _ _ hm2]
  have hskip : reSubE (matchRangeTok labels)
      ('R' :: 'E' :: 'F' :: ':' :: (n ++ rbrace :: rbrace :: post)) =
      ('R' :: 'E' :: 'F' :: ':' :: (n ++ rbrace :: rbrace :: post), []) := by
    apply reSubE_skip _ lbrace htrig
    intro hc
    rcases List.mem_cons.mp hc with h | hc
    · exact absurd h (by decide)
    rcases List.mem_cons.mp hc with h | hc
    · exact absurd h (by decide)
    rcases List.mem_cons.mp hc with h | hc
    · exact absurd h (by decide)
    rcases List.mem_cons.mp hc with h | hc
    · exact absurd h (by decide)
    rcases List.mem_append.mp hc with h | hc
    · exact hn h
    rcases List.mem_cons.mp hc with h | hc
    · exact absurd h (by decide)
    rcases List.mem_cons.mp hc with h | hc
    · exact absurd h (by decide)
    exact hpost hc
  rw [hskip]

theorem matchRefTok_token (labels : List (Str × Nat)) (n post : Str) (hne : n ≠ [])
    (hrb : rbrace ∉ n) :
    matchRefTok labels (refTokOf n ++ post) = some (refOutcome labels n, post) := by
  simp [matchRefTok, matchRefNameTok_token n post hne hrb]

theorem matchRangeTok_token (labels : List (Str × Nat)) (a b post : Str) (hane : a ≠ [])
    (hacolon : ':' ∉ a) (hbne : b ≠ []) (hbrb : rbrace ∉ b) :
    matchRangeTok labels (rangeTokOf a b ++ post) =
      some (rangeOutcome labels a b, post) := by
  simp [matchRangeTok, matchRangeNamesTok_token a b post hane hacolon hbne hbrb]

theorem reSubE_refPass_token (labels : List (Str × Nat)) (pre n post : Str)
    (hpre : lbrace ∉ pre) (hne : n ≠ []) (hrb : rbrace ∉ n) (hpost : lbrace ∉ post) :
    reSubE (matchRefTok labels) (pre ++ refTokOf n ++ post) =
      (pre ++ ((refOutcome labels n).1 ++ post), (refOutcome labels n).2) := by
  have htrig : ∀ l, ((matchRefTok labels) l).isSome = true → l.head? = some lbrace :=
    matchRefTok_head labels
  have hsh : ∀ l r rem, matchRefTok labels l = some (r, rem) → rem.length < l.length :=
    fun l r rem h => matchRefTok_shrink labels l r rem h
  rw [List.append_assoc, reSubE_prepend _ lbrace htrig pre _ (fun c hc h => hpre (h ▸ hc))]
  have hm := matchRefTok_token labels n post hne hrb
  rw [reSubE_match _ hsh _ _ _ _ (by rw [← hm])]
  rw [reSubE_skip _ lbrace htrig post hpost]
  simp

theorem reSubE_rangePass_token (labels : List (Str × Nat)) (pre a b post : Str)
    (hpre : lbrace ∉ pre) (hane : a ≠ []) (hacolon : ':' ∉ a) (hbne : b ≠ [])
    (hbrb : rbrace ∉ b) (hpost : lbrace ∉ post) :
    reSubE (matchRangeTok labels) (pre ++ rangeTokOf a b ++ post) =
      (pre ++ ((rangeOutcome labels a b).1 ++ post), (rangeOutcome labels a b).2) := by
  have htrig : ∀ l, ((matchRangeTok labels) l).isSome = true → l.head? = some lbrace :=
    matchRangeTok_head labels
  have hsh : ∀ l r rem, matchRangeTok labels l = some (r, rem) → rem.length < l.length :=
    fun l r rem h => matchRangeTok_shrink labels l r rem h
  rw [List.append_assoc, reSubE_prepend _ lbrace htrig pre _ (fun c hc h => hpre (h ▸ hc))]
  have hm := matchRangeTok_token labels a b post hane hacolon hbne hbrb
  rw [reSubE_match _ hsh _ _ _ _ (by rw [← hm])]
  rw [reSubE_skip _ lbrace htrig post hpost]
  simp

theorem no_lbrace_in_lit_through : lbrace ∉ " through ".data := by decide

theorem rangeOutcome_no_lbrace (labels : List (Str × Nat)) (a b : Str)
    (ha : lbrace ∉ a) (hb : lbrace ∉ b) : lbrace ∉ (rangeOutcome labels a b).1 := by
  simp only [rangeOutcome]
  cases dictLookup a labels with
  | none =>
    simp only [refErrRangeStr]
    intro hc
    rcases List.mem_append.mp hc with hc | hc
    · rcases List.mem_append.mp hc with hc | hc
      · rcases List.mem_append.mp hc with hc | hc
        · rcases List.mem_append.mp hc with hc | hc
          · exact absurd hc (by decide)
          · exact ha hc
        · exact absurd hc (by decide)
      · exact hb hc
    · exact absurd hc (by decide)
  | some m =>
    cases dictLookup b labels with
    | none =>
      simp only [refErrRangeStr]
      intro hc
      rcases List.mem_append.mp hc with hc | hc
      · rcases List.mem_append.mp hc with hc | hc
        · rcases List.mem_append.mp hc with hc | hc
          · rcases List.mem_append.mp hc with hc | hc
            · exact absurd hc (by decide)
            · exact ha hc
          · exact absurd hc (by decide)
        · exact hb hc
      · exact absurd hc (by decide)
    | some k =>
      by_cases hmk : m = k
      · simp [hmk, natStr_no_lbrace]
      · simp only [hmk, if_neg, if_false]
        intro hc
        rcases List.mem_append.mp hc with hc | hc
        · rcases List.mem_append.mp hc with hc | hc
          · exact natStr_no_lbrace m hc
          · exact no_lbrace_in_lit_through hc
        · exact natStr_no_lbrace k hc

theorem resolveRef_general (ps : ParserState) (pre n post : Str)
    (hpre : lbrace ∉ pre) (hn : lbrace ∉ n) (hne : n ≠ []) (hrb : rbrace ∉ n)
    (hpost : lbrace ∉ post) :
    resolveCrossReferences ps (pre ++ refTokOf n ++ post) =
      ({ ps with errors := ps.errors ++ (refOutcome ps.labels n).2 },
       pre ++ (refOutcome ps.labels n).1 ++ post) := by
  simp only [resolveCrossReferences]
  rw [reSubE_rangePass_skip_refTok ps.labels pre n post hpre hn hpost]
  rw [reSubE_refPass_token ps.labels pre n post hpre hne hrb hpost]
  simp

theorem resolveRange_general (ps : ParserState) (pre a b post : Str)
    (hpre : lbrace ∉ pre) (hane : a ≠ []) (hacolon : ':' ∉ a) (ha : lbrace ∉ a)
    (hbne : b ≠ []) (hbrb : rbrace ∉ b) (hb : lbrace ∉ b) (hpost : lbrace ∉ post) :
    resolveCrossReferences ps (pre ++ rangeTokOf a b ++ post) =
      ({ ps with errors := ps.errors ++ (rangeOutcome ps.labels a b).2 },
       pre ++ (rangeOutcome ps.labels a b).1 ++ post) := by
  simp only [resolveCrossReferences]
  rw [reSubE_rangePass_token ps.labels pre a b post hpre hane hacolon hbne hbrb hpost]
  have hskip : reSubE (matchRefTok ps.labels)
      (pre ++ ((rangeOutcome ps.labels a b).1 ++ post)) =
      (pre ++ ((rangeOutcome ps.labels a b).1 ++ post), []) := by
    apply reSubE_skip _ lbrace (matchRefTok_head ps.labels)
    intro hc
    rcases List.mem_append.mp hc with hc | hc
    · exact hpre hc
    rcases List.mem_append.mp hc with hc | hc
    · exact rangeOutcome_no_lbrace ps.labels a b ha hb hc
    · exact hpost hc
  rw [hskip]
  simp

theorem matchNumberedParagraph_head (l : Str)
    (h : (matchNumberedParagraph l).isSome = true) : l.head? = some '*' := by
  cases l with
  | nil => simp [matchNumberedParagraph] at h
  | cons c t =>
    simp only [matchNumberedParagraph] at h
    split at h
    · rename_i rest heq
      injection heq with h1 _
      simp [h1]
    · simp at h

theorem processLine_blank (fname : Str) (i : Nat) (rawLine : Str)
    (st : ParserState × FileState) (h : pyStrip rawLine = []) :
    processLine fname i rawLine st = st := by
  simp [processLine, h]

theorem processLine_header (fname : Str) (i : Nat) (rawLine : Str)
    (ps : ParserState) (fs : FileState)
    (h : (pyStrip rawLine).head? = some '#') :
    processLine fname i rawLine (ps, fs) = processHeader fname i (pyStrip rawLine) ps fs := by
  have hne : pyStrip rawLine ≠ [] := by
    intro hc; rw [hc] at h; simp at h
  simp [processLine, hne, h]

theorem processLine_marker (fname : Str) (i : Nat) (rawLine : Str)
    (ps : ParserState) (fs : FileState) (o c : Str)
    (h : matchNumberedParagraph (pyStrip rawLine) = some (o, c)) :
    processLine fname i rawLine (ps, fs) = processMarker o c ps fs := by
  have hne : pyStrip rawLine ≠ [] := by
    intro hc; rw [hc] at h; simp [matchNumberedParagraph] at h
  have hhd : (pyStrip rawLine).head? = some '*' :=
    matchNumberedParagraph_head _ (by simp [h])
  have hnh : ¬ (pyStrip rawLine).head? = some '#' := by
    rw [hhd]; intro hc; simp at hc
  simp [processLine, hne, hnh, h]

theorem processLine_list (fname : Str) (i : Nat) (rawLine : Str)
    (ps : ParserState) (fs : FileState)
    (hne : pyStrip rawLine ≠ [])
    (hnh : ¬ (pyStrip rawLine).head? = some '#')
    (hnm : matchNumberedParagraph (pyStrip rawLine) = none)
    (hli : isListItem (pyStrip rawLine) = true) :
    processLine fname i rawLine (ps, fs) =
      (ps, { fs with
             in_list := true,
             current_list := (if fs.in_list then fs.current_list else []) ++
               [formatLegalText (listItemContent (pyStrip rawLine))] }) := by
  simp [processLine, hne, hnh, hnm, hli]

theorem processLine_plain (fname : Str) (i : Nat) (rawLine : Str)
    (ps : ParserState) (fs : FileState)
    (hne : pyStrip rawLine ≠ [])
    (hnh : ¬ (pyStrip rawLine).head? = some '#')
    (hnm : matchNumberedParagraph (pyStrip rawLine) = none)
    (hli : isListItem (pyStrip rawLine) = false) :
    processLine fname i rawLine (ps, fs) =
      (ps, addPara { number := 0, original_number := none,
                     content := formatLegalText (pyStrip rawLine), labels := [],
                     is_numbered := false } (if fs.in_list then closeList fs else fs)) := by
  simp [processLine, hne, hnh, hnm, hli]

theorem numsOfPs_append (a b : List ParsedParagraph) :
    numsOfPs (a ++ b) = numsOfPs a ++ numsOfPs b := by
  simp [numsOfPs]

theorem fsParas_addPara (p : ParsedParagraph) (fs : FileState) (hJ : Jinv fs) :
    fsParas (addPara p fs) = fsParas fs ++ [p] := by
  cases hc : fs.cur with
  | some cs => simp [addPara, fsParas, hc]
  | none =>
    have hsubs := hJ hc
    simp [addPara, fsParas, hc, hsubs]

theorem addPara_Jinv (p : ParsedParagraph) (fs : FileState) (hJ : Jinv fs) :
    Jinv (addPara p fs) := by
  cases hc : fs.cur with
  | some cs => intro h; simp [addPara, hc] at h
  | none =>
    intro _
    simp [addPara, hc]
    exact hJ hc

theorem fsParas_closeList (fs : FileState) : fsParas (closeList fs) = fsParas fs := by
  cases hc : fs.cur with
  | some cs =>
    by_cases hl : fs.current_list = []
    · simp [closeList, hl, fsParas, hc]
    · simp [closeList, hl, fsParas, hc]
  | none =>
    by_cases hl : fs.current_list = []
    · simp [closeList, hl, fsParas, hc]
    · simp [closeList, hl, fsParas, hc]

theorem closeList_Jinv (fs : FileState) (hJ : Jinv fs) : Jinv (closeList fs) := by
  cases hc : fs.cur with
  | some cs =>
    by_cases hl : fs.current_list = []
    · intro h; simp [closeList, hl, hc] at h
    · intro h; simp [closeList, hl, hc] at h
  | none =>
    by_cases hl : fs.current_list = []
    · intro h
      simp [closeList, hl, hc]
      exact hJ hc
    · intro h
      simp [closeList, hl, hc]
      exact hJ hc

theorem fsParas_processHeader (fname : Str) (i : Nat) (l : Str) (ps : ParserState)
    (fs : FileState) :
    fsParas (processHeader fname i l ps fs).2 = fsParas fs ∧
      (processHeader fname i l ps fs).1.counter = ps.counter ∧
      (processHeader fname i l ps fs).1.labels = ps.labels ∧
      (Jinv fs → Jinv (processHeader fname i l ps fs).2) := by
  simp only [processHeader]
  by_cases h3 : 3 < (l.takeWhile (fun c => c = '#')).length
  · simp [h3]
  · by_cases h1 : (l.takeWhile (fun c => c = '#')).length = 1 ∧ fs.sec.title = []
    · simp [h3, h1, fsParas]
      exact fun hJ hc => hJ hc
    · by_cases h2 : 1 < (l.takeWhile (fun c => c = '#')).length
      · cases hc : fs.cur with
        | some cs =>
          by_cases hp : cs.paragraphs ≠ []
          · constructor
            · simp [h3, h1, h2, hc, hp, fsParas]
            · simp [h3, h1, h2, hc, hp, Jinv]
          · constructor
            · simp only [fsParas] at *
              simp [h3, h1, h2, hc, hp]
              have : cs.paragraphs = [] := by
                by_contra hcon
                exact hp hcon
              simp [this]
            · simp [h3, h1, h2, hc, hp, Jinv]
        | none =>
          constructor
          · simp [h3, h1, h2, hc, fsParas]
          · simp [h3, h1, h2, hc, Jinv]
      · simp [h3, h1, h2]

theorem fsNums_addPara_numbered (p : ParsedParagraph) (fs : FileState) (hJ : Jinv fs)
    (hp : p.is_numbered = true) :
    fsNums (addPara p fs) = fsNums fs ++ [p.number] := by
  rw [fsNums, fsParas_addPara p fs hJ, numsOfPs_append]
  have h1 : numsOfPs [p] = [p.number] := by simp [numsOfPs, hp]
  rw [h1]
  rfl

theorem fsNums_addPara_plain (p : ParsedParagraph) (fs : FileState) (hJ : Jinv fs)
    (hp : p.is_numbered = false) :
    fsNums (addPara p fs) = fsNums fs := by
  rw [fsNums, fsParas_addPara p fs hJ, numsOfPs_append]
  have h1 : numsOfPs [p] = [] := by simp [numsOfPs, hp]
  rw [h1, List.append_nil]
  rfl

theorem markCnt_of_none (l : Str) (h : matchNumberedParagraph (pyStrip l) = none) :
    markCnt l = 0 := by
  simp [markCnt, isMarkerLine, h]

theorem markCnt_of_some (l : Str) (p : Str × Str)
    (h : matchNumberedParagraph (pyStrip l) = some p) : markCnt l = 1 := by
  simp [markCnt, isMarkerLine, h]

theorem processLine_inv (fname : Str) (i : Nat) (rawLine : Str) (ps : ParserState)
    (fs : FileState) (hJ : Jinv fs) :
    Jinv (processLine fname i rawLine (ps, fs)).2 ∧
    (processLine fname i rawLine (ps, fs)).1.counter = ps.counter + markCnt rawLine ∧
    fsNums (processLine fname i rawLine (ps, fs)).2 =
      fsNums fs ++ List.range' ps.counter (markCnt rawLine) := by
  by_cases hb : pyStrip rawLine = []
  · have hm : matchNumberedParagraph (pyStrip rawLine) = none := by
      rw [hb]; rfl
    rw [processLine_blank fname i rawLine (ps, fs) hb, markCnt_of_none rawLine hm]
    simp [hJ]
  · by_cases hh : (pyStrip rawLine).head? = some '#'
    · have hm : matchNumberedParagraph (pyStrip rawLine) = none := by
        cases hmm : matchNumberedParagraph (pyStrip rawLine) with
        | none => rfl
        | some p =>
          have := matchNumberedParagraph_head (pyStrip rawLine) (by simp [hmm])
          rw [hh] at this
          simp at this
      rw [processLine_header fname i rawLine ps fs hh, markCnt_of_none rawLine hm]
      have h4 := fsParas_processHeader fname i (pyStrip rawLine) ps fs
      refine ⟨h4.2.2.2 hJ, by rw [h4.2.1, Nat.add_zero], ?_⟩
      simp [fsNums, h4.1]
    · cases hmm : matchNumberedParagraph (pyStrip rawLine) with
      | some p =>
        obtain ⟨o, c⟩ := p
        rw [processLine_marker fname i rawLine ps fs o c hmm, markCnt_of_some rawLine (o, c) hmm]
        simp only [processMarker]
        refine ⟨addPara_Jinv _ fs hJ, by simp, ?_⟩
        rw [fsNums_addPara_numbered _ fs hJ rfl]
        simp [List.range']
      | none =>
        by_cases hli : isListItem (pyStrip rawLine) = true
        · rw [processLine_list fname i rawLine ps fs hb hh hmm hli, markCnt_of_none rawLine hmm]
          constructor
          · intro h
            simp at h
            exact hJ h
          · simp [fsNums, fsParas]
        · have hli' : isListItem (pyStrip rawLine) = false := by
            simpa using hli
          rw [processLine_plain fname i rawLine ps fs hb hh hmm hli', markCnt_of_none rawLine hmm]
          by_cases hin : fs.in_list = true
          · have hJ' : Jinv (closeList fs) := closeList_Jinv fs hJ
            refine ⟨?_, by simp, ?_⟩
            · simp only [hin, if_true]
              exact addPara_Jinv _ _ hJ'
            · simp only [hin, if_true]
              rw [fsNums_addPara_plain _ _ hJ' rfl]
              simp [fsNums, fsParas_closeList]
          · have hin' : fs.in_list = false := by simpa using hin
            refine ⟨?_, by simp, ?_⟩
            · simp only [hin', if_false, Bool.false_eq_true]
              exact addPara_Jinv _ _ hJ
            · simp only [hin', if_false, Bool.false_eq_true]
              rw [fsNums_addPara_plain _ _ hJ rfl]
              simp

theorem range'_concat (s m n : Nat) :
    List.range' s m ++ List.range' (s + m) n = List.range' s (m + n) := by
  have h := List.range'_append s m n 1
  simp only [one_mul] at h
  rw [Nat.add_comm m n]
  exact h

theorem processLines_inv (fname : Str) :
    ∀ (ls : List Str) (i : Nat) (ps : ParserState) (fs : FileState), Jinv fs →
      Jinv (processLines fname i ls (ps, fs)).2 ∧
      (processLines fname i ls (ps, fs)).1.counter = ps.counter + linesCnt ls ∧
      fsNums (processLines fname i ls (ps, fs)).2 =
        fsNums fs ++ List.range' ps.counter (linesCnt ls) := by
  intro ls
  induction ls with
  | nil =>
    intro i ps fs hJ
    simp [processLines, linesCnt, hJ]
  | cons l t ih =>
    intro i ps fs hJ
    have h1 := processLine_inv fname i l ps fs hJ
    obtain ⟨hJ', hcnt, hnums⟩ := h1
    have heq : processLine fname i l (ps, fs) =
        ((processLine fname i l (ps, fs)).1, (processLine fname i l (ps, fs)).2) := rfl
    have h2 := ih (i + 1) (processLine fname i l (ps, fs)).1
      (processLine fname i l (ps, fs)).2 hJ'
    simp only [processLines]
    rw [heq] at *
    refine ⟨h2.1, ?_, ?_⟩
    · rw [h2.2.1, hcnt]
      simp [linesCnt]
      omega
    · rw [h2.2.2, hnums, hcnt]
      rw [List.append_assoc, range'_concat]
      simp [linesCnt]

theorem secNums_sectionOfFs (fs : FileState) :
    numsOfPs (sectionParas (sectionOfFs fs)) = fsNums fs := by
  cases hc : fs.cur with
  | some cs =>
    by_cases hk : cs.paragraphs ≠ [] ∨ cs.lists ≠ []
    · by_cases hl : fs.current_list ≠ []
      · simp [sectionOfFs, hc, hk, hl, sectionParas, fsParas, fsNums]
      · simp [sectionOfFs, hc, hk, hl, sectionParas, fsParas, fsNums]
    · have hp : cs.paragraphs = [] := by
        by_contra hcon
        exact hk (Or.inl hcon)
      have hq : cs.lists = [] := by
        by_contra hcon
        exact hk (Or.inr hcon)
      by_cases hl : fs.current_list ≠ []
      · simp [sectionOfFs, hc, hk, hl, sectionParas, fsParas, fsNums, hp, hq]
      · simp [sectionOfFs, hc, hk, hl, sectionParas, fsParas, fsNums, hp, hq]
  | none =>
    by_cases hl : fs.current_list ≠ []
    · simp [sectionOfFs, hc, hl, sectionParas, fsParas, fsNums]
    · simp [sectionOfFs, hc, hl, sectionParas, fsParas, fsNums]

theorem initFileState_Jinv (order : Nat) : Jinv (initFileState order) := by
  intro _
  rfl

theorem fsNums_init (order : Nat) : fsNums (initFileState order) = [] := by
  simp [fsNums, fsParas, initFileState, numsOfPs]

theorem parseFile_inv (fname : Str) (lines : List Str) (order : Nat) (ps : ParserState) :
    (parseFile fname lines order ps).1.counter = ps.counter + fileCnt (fname, lines) ∧
    (match (parseFile fname lines order ps).2 with
     | some s => numsOfPs (sectionParas s)
     | none => []) = List.range' ps.counter (fileCnt (fname, lines)) := by
  by_cases hb : lines.all (fun l => pyStrip l = []) = true
  · simp [parseFile, hb, fileCnt]
  · have h := processLines_inv fname lines 1 ps (initFileState order)
      (initFileState_Jinv order)
    have hfc : fileCnt (fname, lines) = linesCnt lines := by
      simp [fileCnt, hb]
    simp only [parseFile, hb, if_false, Bool.false_eq_true]
    refine ⟨by rw [h.2.1, hfc], ?_⟩
    rw [secNums_sectionOfFs, h.2.2, fsNums_init, hfc]
    simp

theorem numsOfPs_flatten (xs : List (List ParsedParagraph)) :
    numsOfPs xs.flatten = (xs.map numsOfPs).flatten := by
  induction xs with
  | nil => rfl
  | cons a t ih => simp [numsOfPs_append, ih]

theorem parseFilesAux_inv :
    ∀ (files : List (Str × List Str)) (order : Nat) (ps : ParserState),
      (parseFilesAux files order ps).1.counter = ps.counter + filesCnt files ∧
      numsOfPs (((parseFilesAux files order ps).2).map sectionParas).flatten =
        List.range' ps.counter (filesCnt files) := by
  intro files
  induction files with
  | nil =>
    intro order ps
    simp [parseFilesAux, filesCnt, numsOfPs]
  | cons f rest ih =>
    intro order ps
    obtain ⟨nm, ls⟩ := f
    have h1 := parseFile_inv nm ls order ps
    have h2 := ih (order + 1) (parseFile nm ls order ps).1
    simp only [parseFilesAux]
    constructor
    · rw [h2.1, h1.1]
      simp [filesCnt]
      omega
    · have htotal : filesCnt ((nm, ls) :: rest) = fileCnt (nm, ls) + filesCnt rest := by
        simp [filesCnt]
      rw [htotal]
      cases hs : (parseFile nm ls order ps).2 with
      | some s =>
        rw [hs] at h1
        have h12 : numsOfPs (sectionParas s) =
            List.range' ps.counter (fileCnt (nm, ls)) := h1.2
        simp only [List.map_cons, List.flatten_cons, numsOfPs_append]
        rw [h12, h2.2, h1.1]
        exact range'_concat ps.counter (fileCnt (nm, ls)) (filesCnt rest)
      | none =>
        rw [hs] at h1
        have h12 : ([] : List Nat) = List.range' ps.counter (fileCnt (nm, ls)) := h1.2
        simp only []
        rw [h2.2, h1.1]
        have hz : fileCnt (nm, ls) = 0 := by
          by_contra hcon
          have hlen := congrArg List.length h12
          simp [List.length_range'] at hlen
          exact hcon hlen.symm
        rw [hz]
        simp

theorem validateDocumentStructure_state (specs : List (Str × List Str)) (docType : Str)
    (sections : List ParsedSection) (ps : ParserState) :
    (validateDocumentStructure specs docType sections ps).counter = ps.counter ∧
    (validateDocumentStructure specs docType sections ps).labels = ps.labels := by
  simp only [validateDocumentStructure]
  cases dictLookup docType specs with
  | none => simp
  | some req =>
    induction req generalizing ps with
    | nil => simp
    | cons r t ih =>
      simp only [List.foldl_cons]
      split
      · exact ih ps
      · exact ih { ps with errors := ps.errors ++ ["Missing required section: ".data ++ strUpper r] }

theorem parseDocumentFolder_nums (specs : List (Str × List Str)) (docType : Str)
    (files : List (Str × List Str)) (ps : ParserState) :
    resultNums (parseDocumentFolder specs docType files ps).2 =
      List.range' ps.counter (filesCnt files) ∧
    (parseDocumentFolder specs docType files ps).1.counter = ps.counter + filesCnt files ∧
    (parseDocumentFolder specs docType files ps).2.total_paragraphs =
      ps.counter + filesCnt files - 1 := by
  have h1 := parseFilesAux_inv files 1 ps
  have h2 := validateDocumentStructure_state specs docType (parseFilesAux files 1 ps).2
    (parseFilesAux files 1 ps).1
  simp only [parseDocumentFolder]
  refine ⟨?_, ?_, ?_⟩
  · simp only [resultNums, resultParas]
    rw [numsOfPs_flatten]
    have := h1.2
    rw [← numsOfPs_flatten]
    exact this
  · rw [h2.1, h1.1]
  · rw [h2.1, h1.1]

theorem sectionParas_sectionOfFs (fs : FileState) :
    sectionParas (sectionOfFs fs) = fsParas fs := by
  cases hc : fs.cur with
  | some cs =>
    by_cases hk : cs.paragraphs ≠ [] ∨ cs.lists ≠ []
    · by_cases hl : fs.current_list ≠ []
      · simp [sectionOfFs, hc, hk, hl, sectionParas, fsParas]
      · simp [sectionOfFs, hc, hk, hl, sectionParas, fsParas]
    · have hp : cs.paragraphs = [] := by
        by_contra hcon
        exact hk (Or.inl hcon)
      have hq : cs.lists = [] := by
        by_contra hcon
        exact hk (Or.inr hcon)
      by_cases hl : fs.current_list ≠ []
      · simp [sectionOfFs, hc, hk, hl, sectionParas, fsParas, hp, hq]
      · simp [sectionOfFs, hc, hk, hl, sectionParas, fsParas, hp, hq]
  | none =>
    by_cases hl : fs.current_list ≠ []
    · simp [sectionOfFs, hc, hl, sectionParas, fsParas]
    · simp [sectionOfFs, hc, hl, sectionParas, fsParas]

theorem processLine_allNum (fname : Str) (i : Nat) (rawLine : Str) (ps : ParserState)
    (fs : FileState) (hJ : Jinv fs)
    (hline : pyStrip rawLine = [] ∨ isMarkerLine rawLine = true)
    (hall : ∀ p ∈ fsParas fs, p.is_numbered = true) :
    ∀ p ∈ fsParas (processLine fname i rawLine (ps, fs)).2, p.is_numbered = true := by
  cases hline with
  | inl hb =>
    rw [processLine_blank fname i rawLine (ps, fs) hb]
    exact hall
  | inr hm =>
    simp only [isMarkerLine] at hm
    cases hmm : matchNumberedParagraph (pyStrip rawLine) with
    | none => rw [hmm] at hm; simp at hm
    | some p =>
      obtain ⟨o, c⟩ := p
      rw [processLine_marker fname i rawLine ps fs o c hmm]
      simp only [processMarker]
      rw [fsParas_addPara _ fs hJ]
      intro q hq
      rcases List.mem_append.mp hq with h | h
      · exact hall q h
      · simp at h
        rw [h]

theorem processLines_allNum (fname : Str) :
    ∀ (ls : List Str) (i : Nat) (ps : ParserState) (fs : FileState), Jinv fs →
      (∀ l ∈ ls, pyStrip l = [] ∨ isMarkerLine l = true) →
      (∀ p ∈ fsParas fs, p.is_numbered = true) →
      ∀ p ∈ fsParas (processLines fname i ls (ps, fs)).2, p.is_numbered = true := by
  intro ls
  induction ls with
  | nil =>
    intro i ps fs _ _ hall
    exact hall
  | cons l t ih =>
    intro i ps fs hJ hls hall
    have hJ' := (processLine_inv fname i l ps fs hJ).1
    have hall' := processLine_allNum fname i l ps fs hJ
      (hls l (List.mem_cons_self l t)) hall
    have heq : processLine fname i l (ps, fs) =
        ((processLine fname i l (ps, fs)).1, (processLine fname i l (ps, fs)).2) := rfl
    simp only [processLines]
    rw [heq]
    exact ih (i + 1) _ _ hJ' (fun x hx => hls x (List.mem_cons_of_mem l hx)) hall'

theorem parseFile_allNum (fname : Str) (lines : List Str) (order : Nat) (ps : ParserState)
    (hls : ∀ l ∈ lines, pyStrip l = [] ∨ isMarkerLine l = true) :
    ∀ s, (parseFile fname lines order ps).2 = some s →
      ∀ p ∈ sectionParas s, p.is_numbered = true := by
  intro s hs p hp
  by_cases hb : lines.all (fun l => pyStrip l = []) = true
  · simp [parseFile, hb] at hs
  · simp only [parseFile, hb, if_false, Bool.false_eq_true, Option.some.injEq] at hs
    subst hs
    rw [sectionParas_sectionOfFs] at hp
    exact processLines_allNum fname lines 1 ps (initFileState order)
      (initFileState_Jinv order) hls
      (by simp [fsParas, initFileState]) p hp

theorem parseFilesAux_allNum :
    ∀ (files : List (Str × List Str)) (order : Nat) (ps : ParserState),
      (∀ f ∈ files, ∀ l ∈ f.2, pyStrip l = [] ∨ isMarkerLine l = true) →
      ∀ p ∈ ((parseFilesAux files order ps).2.map sectionParas).flatten,
        p.is_numbered = true := by
  intro files
  induction files with
  | nil =>
    intro order ps _ p hp
    simp [parseFilesAux] at hp
  | cons f rest ih =>
    intro order ps hfs p hp
    obtain ⟨nm, ls⟩ := f
    simp only [parseFilesAux] at hp
    cases hs : (parseFile nm ls order ps).2 with
    | some s =>
      rw [hs] at hp
      simp only [List.map_cons, List.flatten_cons] at hp
      rcases List.mem_append.mp hp with h | h
      · exact parseFile_allNum nm ls order ps
          (hfs (nm, ls) (List.mem_cons_self _ _)) s hs p h
      · exact ih (order + 1) _ (fun g hg => hfs g (List.mem_cons_of_mem _ hg)) p h
    | none =>
      rw [hs] at hp
      exact ih (order + 1) _ (fun g hg => hfs g (List.mem_cons_of_mem _ hg)) p hp

theorem dictLookup_dictInsert_self {α : Type} (k : Str) (v : α) (d : List (Str × α)) :
    dictLookup k (dictInsert k v d) = some v := by
  induction d with
  | nil => simp [dictInsert, dictLookup]
  | cons e t ih =>
    obtain ⟨k', v'⟩ := e
    by_cases hk : k' = k
    · simp [dictInsert, hk, dictLookup]
    · simp [dictInsert, hk, dictLookup, ih]

theorem dictLookup_dictInsert_ne {α : Type} (k k' : Str) (v : α) (d : List (Str × α))
    (h : k' ≠ k) : dictLookup k (dictInsert k' v d) = dictLookup k d := by
  induction d with
  | nil => simp [dictInsert, dictLookup, h]
  | cons e t ih =>
    obtain ⟨k₀, v₀⟩ := e
    by_cases hk : k₀ = k'
    · simp [dictInsert, hk, dictLookup, h]
    · simp [dictInsert, hk, dictLookup, ih]

theorem foldInsert_lookup_mem (x : Str) (v : Nat) :
    ∀ (labs : List Str) (d : List (Str × Nat)), x ∈ labs →
      dictLookup x (labs.foldl (fun acc lab => dictInsert lab v acc) d) = some v := by
  intro labs
  induction labs with
  | nil => intro d h; simp at h
  | cons a t ih =>
    intro d h
    simp only [List.foldl_cons]
    by_cases hx : x ∈ t
    · exact ih _ hx
    · have hax : a = x := by
        rcases List.mem_cons.mp h with h1 | h1
        · exact h1.symm
        · exact absurd h1 hx
      subst hax
      have : ∀ (u : List Str) (d' : List (Str × Nat)), a ∉ u →
          dictLookup a (u.foldl (fun acc lab => dictInsert lab v acc) d') = dictLookup a d' := by
        intro u
        induction u with
        | nil => intro d' _; rfl
        | cons b s ihu =>
          intro d' hu
          simp only [List.foldl_cons]
          have hb : b ≠ a := fun hb => hu (hb ▸ List.mem_cons_self b s)
          rw [ihu _ (fun hm => hu (List.mem_cons_of_mem b hm)),
            dictLookup_dictInsert_ne a b v d' hb]
      rw [this t _ hx, dictLookup_dictInsert_self]

theorem foldInsert_lookup_not_mem (x : Str) (v : Nat) :
    ∀ (labs : List Str) (d : List (Str × Nat)), x ∉ labs →
      dictLookup x (labs.foldl (fun acc lab => dictInsert lab v acc) d) = dictLookup x d := by
  intro labs
  induction labs with
  | nil => intro d _; rfl
  | cons a t ih =>
    intro d h
    simp only [List.foldl_cons]
    have ha : a ≠ x := fun hb => h (hb ▸ List.mem_cons_self a t)
    rw [ih _ (fun hm => h (List.mem_cons_of_mem a hm)),
      dictLookup_dictInsert_ne x a v d ha]

theorem processMarker_labels_mem (o c : Str) (ps : ParserState) (fs : FileState) (x : Str)
    (hx : x ∈ extractLabels c) :
    dictLookup x (processMarker o c ps fs).1.labels = some ps.counter := by
  simp only [processMarker]
  exact foldInsert_lookup_mem x ps.counter (extractLabels c) ps.labels hx

theorem processMarker_errors (o c : Str) (ps : ParserState) (fs : FileState) :
    (processMarker o c ps fs).1.errors = ps.errors := rfl

theorem processLine_lookup_preserved (fname : Str) (i : Nat) (rawLine : Str)
    (ps : ParserState) (fs : FileState) (x : Str)
    (h : definesLabel x rawLine = false) :
    dictLookup x (processLine fname i rawLine (ps, fs)).1.labels =
      dictLookup x ps.labels := by
  by_cases hb : pyStrip rawLine = []
  · rw [processLine_blank fname i rawLine (ps, fs) hb]
  · by_cases hh : (pyStrip rawLine).head? = some '#'
    · rw [processLine_header fname i rawLine ps fs hh]
      rw [(fsParas_processHeader fname i (pyStrip rawLine) ps fs).2.2.1]
    · cases hmm : matchNumberedParagraph (pyStrip rawLine) with
      | some p =>
        obtain ⟨o, c⟩ := p
        rw [processLine_marker fname i rawLine ps fs o c hmm]
        simp only [definesLabel, hmm] at h
        simp only [processMarker]
        exact foldInsert_lookup_not_mem x ps.counter (extractLabels c) ps.labels
          (by simpa using h)
      | none =>
        by_cases hli : isListItem (pyStrip rawLine) = true
        · rw [processLine_list fname i rawLine ps fs hb hh hmm hli]
        · have hli' : isListItem (pyStrip rawLine) = false := by simpa using hli
          rw [processLine_plain fname i rawLine ps fs hb hh hmm hli']

theorem processLines_lookup_preserved (fname : Str) :
    ∀ (ls : List Str) (i : Nat) (ps : ParserState) (fs : FileState) (x : Str),
      (∀ l ∈ ls, definesLabel x l = false) →
      dictLookup x (processLines fname i ls (ps, fs)).1.labels =
        dictLookup x ps.labels := by
  intro ls
  induction ls with
  | nil => intro i ps fs x _; rfl
  | cons l t ih =>
    intro i ps fs x h
    simp only [processLines]
    have heq : processLine fname i l (ps, fs) =
        ((processLine fname i l (ps, fs)).1, (processLine fname i l (ps, fs)).2) := rfl
    rw [heq, ih (i + 1) _ _ x (fun y hy => h y (List.mem_cons_of_mem l hy)),
      processLine_lookup_preserved fname i l ps fs x (h l (List.mem_cons_self l t))]

theorem previewRun :
    ∀ (ls : List Str) (paras : List Str) (cur : Str), cur ≠ [] →
      (∀ l ∈ ls, pyStrip l ≠ [] ∧ ¬ (pyStrip l).head? = some '#') →
      ls.foldl previewStep (paras, cur) =
        (paras, cur ++ (ls.map (fun l => ' ' :: pyStrip l)).flatten) := by
  intro ls
  induction ls with
  | nil => intro paras cur _ _; simp
  | cons l t ih =>
    intro paras cur hcur hls
    obtain ⟨hne, hnh⟩ := hls l (List.mem_cons_self l t)
    simp only [List.foldl_cons]
    have hstep : previewStep (paras, cur) l = (paras, cur ++ ' ' :: pyStrip l) := by
      simp [previewStep, hne, hnh, hcur]
    rw [hstep, ih paras (cur ++ ' ' :: pyStrip l) (by simp)
      (fun y hy => hls y (List.mem_cons_of_mem l hy))]
    simp

theorem previewParagraphs_run (l₀ : Str) (rest : List Str)
    (hls : ∀ l ∈ l₀ :: rest, pyStrip l ≠ [] ∧ ¬ (pyStrip l).head? = some '#') :
    previewParagraphs (l₀ :: rest) =
      [previewFormatLegalText (spaceJoin ((l₀ :: rest).map pyStrip))] := by
  obtain ⟨hne, hnh⟩ := hls l₀ (List.mem_cons_self l₀ rest)
  simp only [previewParagraphs, List.foldl_cons]
  have hstep : previewStep ([], []) l₀ = ([], pyStrip l₀) := by
    simp [previewStep, hne, hnh]
  rw [hstep, previewRun rest [] (pyStrip l₀) hne
    (fun y hy => hls y (List.mem_cons_of_mem l₀ hy))]
  have hcur : pyStrip l₀ ++ (rest.map (fun l => ' ' :: pyStrip l)).flatten ≠ [] := by
    intro hc
    rcases List.append_eq_nil.mp hc with ⟨h1, _⟩
    exact hne h1
  simp only [hcur, ne_eq, not_false_eq_true, if_true]
  have hsj : spaceJoin ((l₀ :: rest).map pyStrip) =
      pyStrip l₀ ++ (rest.map (fun l => ' ' :: pyStrip l)).flatten := by
    simp only [List.map_cons, spaceJoin, List.map_map]
    rfl
  rw [hsj]
  simp

theorem reSubE_noMatch (m : Str → Option ((Str × List Str) × Str)) :
    ∀ l : Str, (∀ i, m (l.drop i) = none) → reSubE m l = (l, []) := by
  intro l
  induction l with
  | nil => intro _; rfl
  | cons c t ih =>
    intro h
    rw [reSubE_cons_none m c t (h 0), ih (fun i => by simpa using h (i + 1))]

theorem containsSub_false_drop (pat : Str) :
    ∀ l : Str, containsSub pat l = false → ∀ i, dropLit pat (l.drop i) = none := by
  intro l
  induction l with
  | nil =>
    intro h i
    simp only [containsSub] at h
    cases hd : dropLit pat [] with
    | none => simp [List.drop_nil, hd]
    | some r => rw [hd] at h; simp at h
  | cons c t ih =>
    intro h i
    simp only [containsSub, Bool.or_eq_false_iff] at h
    cases i with
    | zero =>
      simp only [List.drop_zero]
      cases hd : dropLit pat (c :: t) with
      | none => rfl
      | some r => rw [hd] at h; simp at h
    | succ j =>
      simp only [List.drop_succ_cons]
      exact ih h.2 j

theorem reSub_skip (m : Str → Option (Str × Str)) (trig : Char)
    (htrig : ∀ l, (m l).isSome = true → l.head? = some trig) (l : Str) (h : trig ∉ l) :
    reSub m l = l := by
  unfold reSub
  rw [reSubE_skip _ trig (fun t ht => htrig t (by simpa using ht)) l h]

theorem labelRemoveSub_id (t : Str) (hlab : containsSub labelPat t = false) :
    reSub (fun l => (matchLabelTok l).map (fun p => (([] : Str), p.2))) t = t := by
  unfold reSub
  rw [reSubE_noMatch]
  intro i
  have hd := containsSub_false_drop labelPat t hlab i
  simp [matchLabelTok, hd]

theorem previewFormatLegalText_id (t : Str) (hstar : '*' ∉ t) (hnl : '\n' ∉ t)
    (hlab : containsSub labelPat t = false) :
    previewFormatLegalText t = pyStrip t := by
  unfold previewFormatLegalText
  rw [labelRemoveSub_id t hlab,
    reSub_skip matchBoldTok '*' matchBoldTok_head t hstar,
    reSub_skip matchEmTok '*' matchEmTok_head t hstar,
    reSub_skip matchBreakTok '\n' matchBreakTok_head t hnl]

theorem foldl_errors_concat {α : Type} (g : α → List ValidationError) :
    ∀ (l : List α) (s : ValidatorState),
      (l.foldl (fun s x => { errors := s.errors ++ g x }) s).errors =
        s.errors ++ (l.map g).flatten := by
  intro l
  induction l with
  | nil => intro s; simp
  | cons a t ih =>
    intro s
    simp only [List.foldl_cons, List.map_cons, List.flatten_cons]
    rw [ih]
    simp

theorem validateMarkdownFileSt_errors (cfg : ValidatorConfig) (nm : Str)
    (lines : List Str) (st : ValidatorState) :
    (validateMarkdownFileSt cfg nm lines st).errors =
      st.errors ++ ((zipIdx 1 lines).map (fun p => lineIssues cfg nm p.1 p.2)).flatten := by
  simp only [validateMarkdownFileSt]
  exact foldl_errors_concat (fun p => lineIssues cfg nm p.1 p.2) (zipIdx 1 lines) st

theorem filesFold_errors (cfg : ValidatorConfig) :
    ∀ (files : List (Str × List Str)) (s : ValidatorState),
      (files.foldl (fun s p => validateMarkdownFileSt cfg p.1 p.2 s) s).errors =
        s.errors ++ (files.map (fun p =>
          ((zipIdx 1 p.2).map (fun q => lineIssues cfg p.1 q.1 q.2)).flatten)).flatten := by
  intro files
  induction files with
  | nil => intro s; simp
  | cons f t ih =>
    intro s
    simp only [List.foldl_cons, List.map_cons, List.flatten_cons]
    rw [ih, validateMarkdownFileSt_errors]
    simp

theorem validateDocumentFolder_issues (cfg : ValidatorConfig) (st : ValidatorState)
    (f : FolderData) :
    (validateDocumentFolder cfg st f).2.issues =
      folderStructureIssues cfg f ++ metadataIssues cfg f ++
        (f.md_files.map (fun p =>
          ((zipIdx 1 p.2).map (fun q => lineIssues cfg p.1 q.1 q.2)).flatten)).flatten ++
        namingIssues cfg f.md_files (docTypeOf f.metadata) := by
  simp only [validateDocumentFolder, generateReport]
  rw [filesFold_errors]
  simp

theorem generateReport_valid_iff (cfg : ValidatorConfig) (es : List ValidationError) :
    (generateReport cfg es).is_valid = true ↔ ∀ e ∈ es, e.severity ≠ sevError := by
  simp only [generateReport, List.isEmpty_iff, List.filter_eq_nil_iff]
  constructor
  · intro h e he
    have := h e he
    simpa using this
  · intro h e he
    simpa using h e he

/-- Claim C1: on a freshly constructed parser, a fragment set whose non-blank
lines are all explicitly numbered paragraph markers is assigned paragraph
numbers forming exactly the sequence 1..N in fragment-then-within-fragment
order — strictly increasing, no gaps or repeats — independent of the original
marker digits (the theorem holds for every such fragment set, whatever the
marker text). -/
theorem c1_fresh_numbering_range (specs : List (Str × List Str)) (docType : Str)
    (files : List (Str × List Str))
    (h : ∀ f ∈ files, ∀ l ∈ f.2, pyStrip l = [] ∨ isMarkerLine l = true) :
    resultNums (parseDocumentFolder specs docType files initParserState).2 =
      List.range' 1
        (parseDocumentFolder specs docType files initParserState).2.total_paragraphs ∧
    ∀ p ∈ resultParas (parseDocumentFolder specs docType files initParserState).2,
      p.is_numbered = true := by
  have h1 := parseDocumentFolder_nums specs docType files initParserState
  constructor
  · have htot : (parseDocumentFolder specs docType files initParserState).2.total_paragraphs =
        filesCnt files := by
      rw [h1.2.2]
      simp [initParserState]
    rw [htot]
    exact h1.1
  · intro p hp
    apply parseFilesAux_allNum files 1 initParserState h p
    simpa [resultParas, parseDocumentFolder] using hp

/-- Claim C4 (amended), first part: the parser instance state is threaded, not
reset: a first run on a fresh parser numbers paragraphs 1..N, but a second call
of `parse_document_folder` on the same instance continues the counter, so the
second run's paragraphs are numbered N+1..2N and its reported total is 2N.
Identical numbering across runs therefore holds only when each run uses a
freshly constructed parser. -/
theorem c4_state_carryover (specs : List (Str × List Str)) (docType : Str)
    (files : List (Str × List Str)) :
    resultNums (parseDocumentFolder specs docType files initParserState).2 =
      List.range' 1 (filesCnt files) ∧
    resultNums (parseDocumentFolder specs docType files
        (parseDocumentFolder specs docType files initParserState).1).2 =
      List.range' (1 + filesCnt files) (filesCnt files) ∧
    (parseDocumentFolder specs docType files
        (parseDocumentFolder specs docType files initParserState).1).2.total_paragraphs =
      2 * filesCnt files := by
  have h1 := parseDocumentFolder_nums specs docType files initParserState
  have h2 := parseDocumentFolder_nums specs docType files
    (parseDocumentFolder specs docType files initParserState).1
  refine ⟨h1.1, ?_, ?_⟩
  · rw [h2.1, h1.2.1]
    simp [initParserState]
  · rw [h2.2.2, h1.2.1]
    simp [initParserState]
    omega

/-- Claim C4 counterexample: rerunning `parse_document_folder` on the same
parser instance does not reproduce the first run's numbering: a one-paragraph
document is numbered [1] on the first call and [2] on the second. -/
theorem c4_rerun_counterexample :
    resultNums (parseDocumentFolder [] "unknown".data
      [("01_a.md".data, ["**1.** Alpha".data])] initParserState).2 = [1] ∧
    resultNums (parseDocumentFolder [] "unknown".data
      [("01_a.md".data, ["**1.** Alpha".data])]
      (parseDocumentFolder [] "unknown".data
        [("01_a.md".data, ["**1.** Alpha".data])] initParserState).1).2 = [2] ∧
    ([2] : List Nat) ≠ [1] := by decide

/-- Witness for C1 at a concrete two-fragment input whose markers are 1, 2 and
9: the assigned numbers are 1..3 regardless of the digit 9. -/
theorem c1_fresh_numbering_range_witness :
    (∀ f ∈ [(("01_a.md".data : Str), ["**1.** Alpha".data, "**2.** Beta".data]),
            (("02_b.md".data : Str), ["**9.** Gamma".data])],
      ∀ l ∈ f.2, pyStrip l = [] ∨ isMarkerLine l = true) ∧
    (resultNums (parseDocumentFolder [] "unknown".data
        [("01_a.md".data, ["**1.** Alpha".data, "**2.** Beta".data]),
         ("02_b.md".data, ["**9.** Gamma".data])] initParserState).2 =
      List.range' 1
        (parseDocumentFolder [] "unknown".data
          [("01_a.md".data, ["**1.** Alpha".data, "**2.** Beta".data]),
           ("02_b.md".data, ["**9.** Gamma".data])] initParserState).2.total_paragraphs ∧
     ∀ p ∈ resultParas (parseDocumentFolder [] "unknown".data
        [("01_a.md".data, ["**1.** Alpha".data, "**2.** Beta".data]),
         ("02_b.md".data, ["**9.** Gamma".data])] initParserState).2,
       p.is_numbered = true) :=
  ⟨by decide, c1_fresh_numbering_range [] "unknown".data
    [("01_a.md".data, ["**1.** Alpha".data, "**2.** Beta".data]),
     ("02_b.md".data, ["**9.** Gamma".data])] (by decide)⟩

/-- Claim C3 counterexample: when the same label name `x` is defined in two
paragraphs, the parser keeps the second binding (x ↦ 2), not the first, and
emits no error Issue. -/
theorem c3_duplicate_label_counterexample :
    dictLookup "x".data (parseDocumentFolder [] "unknown".data
      [("01_a.md".data, ["**1.** Alpha \x7b\x7bLABEL:x\x7d\x7d".data,
                         "**2.** Beta \x7b\x7bLABEL:x\x7d\x7d".data])]
      initParserState).2.labels = some 2 ∧
    dictLookup "x".data (parseDocumentFolder [] "unknown".data
      [("01_a.md".data, ["**1.** Alpha \x7b\x7bLABEL:x\x7d\x7d".data,
                         "**2.** Beta \x7b\x7bLABEL:x\x7d\x7d".data])]
      initParserState).2.labels ≠ some 1 ∧
    (parseDocumentFolder [] "unknown".data
      [("01_a.md".data, ["**1.** Alpha \x7b\x7bLABEL:x\x7d\x7d".data,
                         "**2.** Beta \x7b\x7bLABEL:x\x7d\x7d".data])]
      initParserState).2.errors = [] := by decide

/-- Claim C3 (amended): label bindings are overwritten, last definition wins:
after a line defining `x` is processed (from any prior parser state, in
particular one where `x` is already bound to an earlier paragraph), and no
later line redefines `x`, the label table maps `x` to the paragraph number
assigned at that defining line; a numbered-marker line never appends an error
Issue, so the duplicate definition is not reported. -/
theorem c3_last_binding_wins (fname : Str) (i : Nat) (ps : ParserState)
    (fs : FileState) (ls2 : List Str) (x o c ldef : Str)
    (h1 : matchNumberedParagraph (pyStrip ldef) = some (o, c))
    (h2 : x ∈ extractLabels c)
    (h3 : ∀ l ∈ ls2, definesLabel x l = false) :
    dictLookup x (processLines fname (i + 1) ls2
      (processLine fname i ldef (ps, fs))).1.labels = some ps.counter ∧
    (processLine fname i ldef (ps, fs)).1.errors = ps.errors := by
  rw [processLine_marker fname i ldef ps fs o c h1]
  constructor
  · have heq : processMarker o c ps fs =
        ((processMarker o c ps fs).1, (processMarker o c ps fs).2) := rfl
    rw [heq, processLines_lookup_preserved fname ls2 (i + 1) _ _ x h3]
    exact processMarker_labels_mem o c ps fs x h2
  · exact processMarker_errors o c ps fs

/-- Witness for the amended C3: the parser state already binds `x` to 1 (an
earlier definition) and has counter 7; the defining line rebinds `x` to 7 and
appends no error. -/
theorem c3_last_binding_wins_witness :
    (matchNumberedParagraph (pyStrip "**2.** Beta \x7b\x7bLABEL:x\x7d\x7d".data) =
      some ("2".data, "Beta \x7b\x7bLABEL:x\x7d\x7d".data) ∧
     "x".data ∈ extractLabels "Beta \x7b\x7bLABEL:x\x7d\x7d".data ∧
     (∀ l ∈ [("**3.** Gamma".data : Str)], definesLabel "x".data l = false)) ∧
    (dictLookup "x".data (processLines "01_a.md".data 3 ["**3.** Gamma".data]
      (processLine "01_a.md".data 2 "**2.** Beta \x7b\x7bLABEL:x\x7d\x7d".data
        ({ counter := 7, labels := [("x".data, 1)], errors := [], warnings := [] },
         initFileState 1))).1.labels = some 7 ∧
     (processLine "01_a.md".data 2 "**2.** Beta \x7b\x7bLABEL:x\x7d\x7d".data
        ({ counter := 7, labels := [("x".data, 1)], errors := [], warnings := [] },
         initFileState 1)).1.errors = []) :=
  ⟨⟨by decide, by decide, by decide⟩,
   c3_last_binding_wins "01_a.md".data 2
     { counter := 7, labels := [("x".data, 1)], errors := [], warnings := [] }
     (initFileState 1) ["**3.** Gamma".data] "x".data "2".data
     "Beta \x7b\x7bLABEL:x\x7d\x7d".data "**2.** Beta \x7b\x7bLABEL:x\x7d\x7d".data
     (by decide) (by decide) (by decide)⟩

/-- Claim C7 counterexample: a depth-4 header line is not accepted as a
depth-3 header — no section or subsection is created for it at all; the parse
records one error and continues with the following lines. -/
theorem c7_deep_header_counterexample :
    (parseDocumentFolder [] "unknown".data
      [("01_a.md".data, ["#### Deep".data, "**1.** Alpha".data])]
      initParserState).2.errors =
      ["Header level 4 exceeds maximum (H3) in 01_a.md:1".data] ∧
    ((parseDocumentFolder [] "unknown".data
      [("01_a.md".data, ["#### Deep".data, "**1.** Alpha".data])]
      initParserState).2.sections.map (fun s => s.subsections)).flatten = [] ∧
    ((parseDocumentFolder [] "unknown".data
      [("01_a.md".data, ["#### Deep".data, "**1.** Alpha".data])]
      initParserState).2.sections.map (fun s => s.title)) = [[]] ∧
    resultNums (parseDocumentFolder [] "unknown".data
      [("01_a.md".data, ["#### Deep".data, "**1.** Alpha".data])]
      initParserState).2 = [1] := by decide

/-- Claim C7 (amended): a line whose leading header markers give depth > 3
does not throw; it appends exactly one error Issue and is skipped entirely —
the file state (section structure, open subsection, list accumulator) is left
unchanged, it is not entered as a depth-3 header — and parsing continues with
the next line. -/
theorem c7_deep_header_skipped (fname : Str) (i : Nat) (rawLine : Str)
    (ps : ParserState) (fs : FileState)
    (hh : (pyStrip rawLine).head? = some '#')
    (h3 : 3 < ((pyStrip rawLine).takeWhile (fun c => c = '#')).length) :
    processLine fname i rawLine (ps, fs) =
      ({ ps with errors := ps.errors ++
          [headerErrMsg fname i ((pyStrip rawLine).takeWhile (fun c => c = '#')).length] },
       fs) := by
  rw [processLine_header fname i rawLine ps fs hh]
  simp [processHeader, h3]

/-- Witness for the amended C7 at the line `#### Deep`. -/
theorem c7_deep_header_skipped_witness :
    ((pyStrip "#### Deep".data).head? = some '#' ∧
     3 < ((pyStrip "#### Deep".data).takeWhile (fun c => c = '#')).length) ∧
    processLine "01_a.md".data 1 "#### Deep".data (initParserState, initFileState 1) =
      ({ initParserState with errors := initParserState.errors ++
          [headerErrMsg "01_a.md".data 1
            ((pyStrip "#### Deep".data).takeWhile (fun c => c = '#')).length] },
       initFileState 1) :=
  ⟨⟨by decide, by decide⟩,
   c7_deep_header_skipped "01_a.md".data 1 "#### Deep".data initParserState
     (initFileState 1) (by decide) (by decide)⟩

/-- Claim C8 counterexample: two consecutive plain (unmatched, non-blank)
lines become two separate unnumbered paragraphs in the parser, not one
paragraph joined with a space. -/
theorem c8_wrap_counterexample :
    ((resultParas (parseDocumentFolder [] "unknown".data
      [("01_a.md".data, ["foo".data, "bar".data])] initParserState).2).map
        (fun p => p.content)) = ["foo".data, "bar".data] ∧
    (resultParas (parseDocumentFolder [] "unknown".data
      [("01_a.md".data, ["foo".data, "bar".data])] initParserState).2).length ≠ 1 := by
  decide

/-- Claim C8 (amended): in `UniversalMarkdownParser._parse_markdown_file`
every non-blank line matching no header, marker or list pattern becomes its
own unnumbered Paragraph (appended to the open section or subsection); it is
the preview generator's parser, `UniversalPreviewGenerator._parse_markdown_file`,
that joins a run of such physical lines into one paragraph with single
spaces. -/
theorem c8_plain_line_behavior :
    (∀ (fname : Str) (i : Nat) (rawLine : Str) (ps : ParserState) (fs : FileState),
      pyStrip rawLine ≠ [] →
      ¬ (pyStrip rawLine).head? = some '#' →
      matchNumberedParagraph (pyStrip rawLine) = none →
      isListItem (pyStrip rawLine) = false →
      fs.in_list = false →
      processLine fname i rawLine (ps, fs) =
        (ps, addPara { number := 0, original_number := none,
                       content := formatLegalText (pyStrip rawLine), labels := [],
                       is_numbered := false } fs)) ∧
    (∀ (l₀ : Str) (rest : List Str),
      (∀ l ∈ l₀ :: rest, pyStrip l ≠ [] ∧ ¬ (pyStrip l).head? = some '#') →
      previewParagraphs (l₀ :: rest) =
        [previewFormatLegalText (spaceJoin ((l₀ :: rest).map pyStrip))]) := by
  constructor
  · intro fname i rawLine ps fs hne hnh hnm hli hin
    rw [processLine_plain fname i rawLine ps fs hne hnh hnm hli]
    simp [hin]
  · exact previewParagraphs_run

/-- Witness for the amended C8: the parser turns the plain line `bar baz` into
one separate unnumbered paragraph, and the preview parser joins the two lines
`foo` and `bar` into the single paragraph `foo bar`. -/
theorem c8_plain_line_behavior_witness :
    ((pyStrip "bar baz".data ≠ [] ∧
      ¬ (pyStrip "bar baz".data).head? = some '#' ∧
      matchNumberedParagraph (pyStrip "bar baz".data) = none ∧
      isListItem (pyStrip "bar baz".data) = false ∧
      (initFileState 1).in_list = false) ∧
     (∀ l ∈ [("foo".data : Str), "bar".data],
        pyStrip l ≠ [] ∧ ¬ (pyStrip l).head? = some '#')) ∧
    (processLine "01_a.md".data 1 "bar baz".data (initParserState, initFileState 1) =
      (initParserState,
       addPara { number := 0, original_number := none,
                 content := formatLegalText (pyStrip "bar baz".data), labels := [],
                 is_numbered := false } (initFileState 1)) ∧
     previewParagraphs ["foo".data, "bar".data] =
       [previewFormatLegalText (spaceJoin (["foo".data, "bar".data].map pyStrip))]) :=
  ⟨⟨⟨by decide, by decide, by decide, by decide, by decide⟩, by decide⟩,
   ⟨c8_plain_line_behavior.1 "01_a.md".data 1 "bar baz".data initParserState
      (initFileState 1) (by decide) (by decide) (by decide) (by decide) (by decide),
    c8_plain_line_behavior.2 "foo".data ["bar".data] (by decide)⟩⟩

/-- Claim C5: a single reference with an undefined label is substituted by the
visible error token `[REF ERROR: name]` and appends exactly one error Issue;
a range reference with an undefined endpoint (either or both) is substituted
by `[REF ERROR: start:end]` naming both endpoint labels and appends exactly
one error Issue, not two. -/
theorem c5_unresolved_reference_errors :
    (∀ (ps : ParserState) (pre n post : Str),
      lbrace ∉ pre → lbrace ∉ n → n ≠ [] → rbrace ∉ n → lbrace ∉ post →
      dictLookup n ps.labels = none →
      resolveCrossReferences ps (pre ++ refTokOf n ++ post) =
        ({ ps with errors := ps.errors ++ [unresolvedRefMsg n] },
         pre ++ refErrStr n ++ post)) ∧
    (∀ (ps : ParserState) (pre a b post : Str),
      lbrace ∉ pre → a ≠ [] → ':' ∉ a → lbrace ∉ a → b ≠ [] → rbrace ∉ b →
      lbrace ∉ b → lbrace ∉ post →
      (dictLookup a ps.labels = none ∨ dictLookup b ps.labels = none) →
      resolveCrossReferences ps (pre ++ rangeTokOf a b ++ post) =
        ({ ps with errors := ps.errors ++ [unresolvedRangeMsg a b] },
         pre ++ refErrRangeStr a b ++ post)) := by
  constructor
  · intro ps pre n post hpre hn hne hrb hpost hnone
    have h := resolveRef_general ps pre n post hpre hn hne hrb hpost
    rw [h]
    simp [refOutcome, hnone, List.append_assoc]
  · intro ps pre a b post hpre hane hacolon ha hbne hbrb hb hpost hnone
    have h := resolveRange_general ps pre a b post hpre hane hacolon ha hbne hbrb hb hpost
    rw [h]
    have hout : rangeOutcome ps.labels a b =
        (refErrRangeStr a b, [unresolvedRangeMsg a b]) := by
      cases hnone with
      | inl h1 =>
        simp [rangeOutcome, h1]
      | inr h1 =>
        cases h2 : dictLookup a ps.labels with
        | none => simp [rangeOutcome, h2]
        | some m => simp [rangeOutcome, h2, h1]
    rw [hout]

/-- Witness for C5: an undefined single reference and a doubly-undefined range
reference each append exactly one error on an empty label table. -/
theorem c5_unresolved_reference_errors_witness :
    ((lbrace ∉ "See ".data ∧ lbrace ∉ "undef".data ∧ ("undef".data : Str) ≠ [] ∧
      rbrace ∉ "undef".data ∧ lbrace ∉ " here.".data ∧
      dictLookup "undef".data initParserState.labels = none) ∧
     (lbrace ∉ "See ".data ∧ ("aa".data : Str) ≠ [] ∧ ':' ∉ "aa".data ∧
      lbrace ∉ "aa".data ∧ ("bb".data : Str) ≠ [] ∧ rbrace ∉ "bb".data ∧
      lbrace ∉ "bb".data ∧ lbrace ∉ " here.".data ∧
      (dictLookup "aa".data initParserState.labels = none ∨
       dictLookup "bb".data initParserState.labels = none))) ∧
    (resolveCrossReferences initParserState
        ("See ".data ++ refTokOf "undef".data ++ " here.".data) =
      ({ initParserState with errors := initParserState.errors ++
          [unresolvedRefMsg "undef".data] },
       "See ".data ++ refErrStr "undef".data ++ " here.".data) ∧
     resolveCrossReferences initParserState
        ("See ".data ++ rangeTokOf "aa".data "bb".data ++ " here.".data) =
      ({ initParserState with errors := initParserState.errors ++
          [unresolvedRangeMsg "aa".data "bb".data] },
       "See ".data ++ refErrRangeStr "aa".data "bb".data ++ " here.".data)) :=
  ⟨⟨⟨by decide, by decide, by decide, by decide, by decide, by decide⟩,
    ⟨by decide, by decide, by decide, by decide, by decide, by decide, by decide,
     by decide, Or.inl (by decide)⟩⟩,
   ⟨c5_unresolved_reference_errors.1 initParserState "See ".data "undef".data
      " here.".data (by decide) (by decide) (by decide) (by decide) (by decide)
      (by decide),
    c5_unresolved_reference_errors.2 initParserState "See ".data "aa".data "bb".data
      " here.".data (by decide) (by decide) (by decide) (by decide) (by decide)
      (by decide) (by decide) (by decide) (Or.inl (by decide))⟩⟩

/-- Claim C6: a range reference whose endpoints both resolve collapses to the
single number when the two numbers are equal, and otherwise substitutes
exactly the text `start through end` — for every pair of values, including a
descending pair, which is emitted as written and not reordered. -/
theorem c6_range_resolution (ps : ParserState) (pre a b post : Str) (m k : Nat)
    (hpre : lbrace ∉ pre) (hane : a ≠ []) (hacolon : ':' ∉ a) (ha : lbrace ∉ a)
    (hbne : b ≠ []) (hbrb : rbrace ∉ b) (hb : lbrace ∉ b) (hpost : lbrace ∉ post)
    (hma : dictLookup a ps.labels = some m) (hmb : dictLookup b ps.labels = some k) :
    resolveCrossReferences ps (pre ++ rangeTokOf a b ++ post) =
      (ps, pre ++ (if m = k then natStr m
                   else natStr m ++ " through ".data ++ natStr k) ++ post) := by
  have h := resolveRange_general ps pre a b post hpre hane hacolon ha hbne hbrb hb hpost
  rw [h]
  have hout : rangeOutcome ps.labels a b =
      (if m = k then natStr m else natStr m ++ " through ".data ++ natStr k, []) := by
    simp [rangeOutcome, hma, hmb]
  rw [hout]
  cases ps
  simp [List.append_assoc]

/-- Witness for C6: with `aa ↦ 9` and `bb ↦ 3` the descending range resolves
to `9 through 3` exactly as written. -/
theorem c6_range_resolution_witness :
    (lbrace ∉ "See ".data ∧ ("aa".data : Str) ≠ [] ∧ ':' ∉ "aa".data ∧
     lbrace ∉ "aa".data ∧ ("bb".data : Str) ≠ [] ∧ rbrace ∉ "bb".data ∧
     lbrace ∉ "bb".data ∧ lbrace ∉ ".".data ∧
     dictLookup "aa".data [("aa".data, 9), ("bb".data, 3)] = some 9 ∧
     dictLookup "bb".data [("aa".data, 9), ("bb".data, 3)] = some 3) ∧
    resolveCrossReferences
        { counter := 1, labels := [("aa".data, 9), ("bb".data, 3)],
          errors := [], warnings := [] }
        ("See ".data ++ rangeTokOf "aa".data "bb".data ++ ".".data) =
      ({ counter := 1, labels := [("aa".data, 9), ("bb".data, 3)],
         errors := [], warnings := [] },
       "See ".data ++ (if (9 : Nat) = 3 then natStr 9
                       else natStr 9 ++ " through ".data ++ natStr 3) ++ ".".data) :=
  ⟨⟨by decide, by decide, by decide, by decide, by decide, by decide, by decide,
    by decide, by decide, by decide⟩,
   c6_range_resolution
     { counter := 1, labels := [("aa".data, 9), ("bb".data, 3)],
       errors := [], warnings := [] }
     "See ".data "aa".data "bb".data ".".data 9 3 (by decide) (by decide) (by decide)
     (by decide) (by decide) (by decide) (by decide) (by decide) (by decide)
     (by decide)⟩

/-- Claim C2 counterexample: after a full assembly and preview run, renderer
content still contains the raw unresolved token — the preview parser's
formatter does not resolve references, and nothing in `parse_document_folder`
calls `resolve_cross_references`. -/
theorem c2_raw_token_counterexample :
    previewParseFile "01_intro.md".data
        ["**1.** See \x7b\x7bREF:intro\x7d\x7d.".data] =
      some { title := [],
             paragraphs := ["<strong>1.</strong> See \x7b\x7bREF:intro\x7d\x7d.".data],
             file_name := "01_intro.md".data } ∧
    containsSub refPat "<strong>1.</strong> See \x7b\x7bREF:intro\x7d\x7d.".data = true ∧
    ((resultParas (parseDocumentFolder [] "unknown".data
        [("01_intro.md".data, ["**1.** See \x7b\x7bREF:intro\x7d\x7d.".data])]
        initParserState).2).map (fun p => containsSub refPat p.content)) = [true] := by
  decide

/-- Claim C2 (amended): reference tokens are replaced only by
`resolve_cross_references`: there, a single reference becomes either the
literal number of its label or the explicit `[REF ERROR: name]` marker, never
a raw token; the preview formatter, by contrast, leaves any text without
emphasis markers, newlines and label tokens unchanged (up to stripping), so
reference tokens in renderer-bound content survive verbatim. -/
theorem c2_resolution_only_in_resolver :
    (∀ (ps : ParserState) (pre n post : Str),
      lbrace ∉ pre → lbrace ∉ n → n ≠ [] → rbrace ∉ n → lbrace ∉ post →
      (resolveCrossReferences ps (pre ++ refTokOf n ++ post)).2 =
        pre ++ (match dictLookup n ps.labels with
                | some k => natStr k
                | none => refErrStr n) ++ post) ∧
    (∀ t : Str, '*' ∉ t → '\n' ∉ t → containsSub labelPat t = false →
      previewFormatLegalText t = pyStrip t) := by
  constructor
  · intro ps pre n post hpre hn hne hrb hpost
    rw [resolveRef_general ps pre n post hpre hn hne hrb hpost]
    cases hd : dictLookup n ps.labels with
    | some k => simp [refOutcome, hd, List.append_assoc]
    | none => simp [refOutcome, hd, List.append_assoc]
  · exact previewFormatLegalText_id

/-- Witness for the amended C2: a defined reference resolves to its number,
and the preview formatter leaves the raw token `\x7b\x7bREF:x\x7d\x7d` in
place. -/
theorem c2_resolution_only_in_resolver_witness :
    ((lbrace ∉ "See ".data ∧ lbrace ∉ "x".data ∧ ("x".data : Str) ≠ [] ∧
      rbrace ∉ "x".data ∧ lbrace ∉ ".".data) ∧
     ('*' ∉ "See \x7b\x7bREF:x\x7d\x7d.".data ∧
      '\n' ∉ "See \x7b\x7bREF:x\x7d\x7d.".data ∧
      containsSub labelPat "See \x7b\x7bREF:x\x7d\x7d.".data = false)) ∧
    ((resolveCrossReferences
        { counter := 1, labels := [("x".data, 4)], errors := [], warnings := [] }
        ("See ".data ++ refTokOf "x".data ++ ".".data)).2 =
      "See ".data ++ (match dictLookup "x".data
          ({ counter := 1, labels := [("x".data, 4)], errors := [],
             warnings := [] } : ParserState).labels with
        | some k => natStr k
        | none => refErrStr "x".data) ++ ".".data ∧
     previewFormatLegalText "See \x7b\x7bREF:x\x7d\x7d.".data =
       pyStrip "See \x7b\x7bREF:x\x7d\x7d.".data) :=
  ⟨⟨⟨by decide, by decide, by decide, by decide, by decide⟩,
    ⟨by decide, by decide, by decide⟩⟩,
   ⟨c2_resolution_only_in_resolver.1
      { counter := 1, labels := [("x".data, 4)], errors := [], warnings := [] }
      "See ".data "x".data ".".data (by decide) (by decide) (by decide) (by decide)
      (by decide),
    c2_resolution_only_in_resolver.2 "See \x7b\x7bREF:x\x7d\x7d.".data (by decide)
      (by decide) (by decide)⟩⟩

/-- Claim C9: a validation run examines every line of every fragment and
never stops at the first violation — the report's issue list is exactly the
concatenation of the folder-structure issues, the metadata issues, the
per-line issues of every line of every file in order, and the file-naming
issues — and the report passes exactly when no accumulated issue has error
severity (warnings alone never fail validation). -/
theorem c9_full_accumulation (cfg : ValidatorConfig) (st : ValidatorState)
    (f : FolderData) :
    (validateDocumentFolder cfg st f).2.issues =
      folderStructureIssues cfg f ++ metadataIssues cfg f ++
        (f.md_files.map (fun p =>
          ((zipIdx 1 p.2).map (fun q => lineIssues cfg p.1 q.1 q.2)).flatten)).flatten ++
        namingIssues cfg f.md_files (docTypeOf f.metadata) ∧
    ((validateDocumentFolder cfg st f).2.is_valid = true ↔
      ∀ e ∈ (validateDocumentFolder cfg st f).2.issues, e.severity ≠ sevError) := by
  refine ⟨validateDocumentFolder_issues cfg st f, ?_⟩
  simp only [validateDocumentFolder]
  exact generateReport_valid_iff cfg _

/-- Claim C10: `validate_document_folder` resets the accumulated issue list at
the start of every call, so the returned report is independent of any issues
left on the validator instance by earlier calls — validating a folder after
validating any other folder on the same instance gives exactly the report of
a fresh validation, and validating the same unchanged folder twice in a row
returns equal reports. -/
theorem c10_reset_per_call (cfg : ValidatorConfig) (st st' : ValidatorState)
    (f g : FolderData) :
    (validateDocumentFolder cfg st f).2 = (validateDocumentFolder cfg st' f).2 ∧
    (validateDocumentFolder cfg (validateDocumentFolder cfg st g).1 f).2 =
      (validateDocumentFolder cfg st f).2 ∧
    (validateDocumentFolder cfg (validateDocumentFolder cfg st f).1 f).2 =
      (validateDocumentFolder cfg st f).2 := by
  exact ⟨rfl, rfl, rfl⟩

/-- Witness for C9 at a concrete folder: the report of a validation run with a
non-empty residual instance state is still exactly the concatenated issue list
with the no-error-severity verdict. -/
theorem c9_full_accumulation_witness :
    (validateDocumentFolder
        { strict := false, level_name := "standard".data, line_length_max := 120,
          prohibited_words := ["very".data], required_fields := [],
          known_types := [] }
        { errors := [{ file_path := "old".data, line_number := 0,
                       error_type := "stale".data, message := "stale".data,
                       severity := sevError }] }
        { path := "doc".data, subfolders_present := requiredSubfolders,
          metadata := MetaVal.d [], md_files := [("01_a.md".data, ["ok".data])] }).2.issues =
      folderStructureIssues
        { strict := false, level_name := "standard".data, line_length_max := 120,
          prohibited_words := ["very".data], required_fields := [],
          known_types := [] }
        { path := "doc".data, subfolders_present := requiredSubfolders,
          metadata := MetaVal.d [], md_files := [("01_a.md".data, ["ok".data])] } ++
      metadataIssues
        { strict := false, level_name := "standard".data, line_length_max := 120,
          prohibited_words := ["very".data], required_fields := [],
          known_types := [] }
        { path := "doc".data, subfolders_present := requiredSubfolders,
          metadata := MetaVal.d [], md_files := [("01_a.md".data, ["ok".data])] } ++
      (([("01_a.md".data, ["ok".data])].map (fun p =>
        ((zipIdx 1 p.2).map (fun q => lineIssues
          { strict := false, level_name := "standard".data, line_length_max := 120,
            prohibited_words := ["very".data], required_fields := [],
            known_types := [] } p.1 q.1 q.2)).flatten)).flatten) ++
      namingIssues
        { strict := false, level_name := "standard".data, line_length_max := 120,
          prohibited_words := ["very".data], required_fields := [],
          known_types := [] }
        [("01_a.md".data, ["ok".data])] (docTypeOf (MetaVal.d [])) ∧
    ((validateDocumentFolder
        { strict := false, level_name := "standard".data, line_length_max := 120,
          prohibited_words := ["very".data], required_fields := [],
          known_types := [] }
        { errors := [{ file_path := "old".data, line_number := 0,
                       error_type := "stale".data, message := "stale".data,
                       severity := sevError }] }
        { path := "doc".data, subfolders_present := requiredSubfolders,
          metadata := MetaVal.d [], md_files := [("01_a.md".data, ["ok".data])] }).2.is_valid = true ↔
      ∀ e ∈ (validateDocumentFolder
        { strict := false, level_name := "standard".data, line_length_max := 120,
          prohibited_words := ["very".data], required_fields := [],
          known_types := [] }
        { errors := [{ file_path := "old".data, line_number := 0,
                       error_type := "stale".data, message := "stale".data,
                       severity := sevError }] }
        { path := "doc".data, subfolders_present := requiredSubfolders,
          metadata := MetaVal.d [], md_files := [("01_a.md".data, ["ok".data])] }).2.issues,
        e.severity ≠ sevError) :=
  c9_full_accumulation
    { strict := false, level_name := "standard".data, line_length_max := 120,
      prohibited_words := ["very".data], required_fields := [], known_types := [] }
    { errors := [{ file_path := "old".data, line_number := 0,
                   error_type := "stale".data, message := "stale".data,
                   severity := sevError }] }
    { path := "doc".data, subfolders_present := requiredSubfolders,
      metadata := MetaVal.d [], md_files := [("01_a.md".data, ["ok".data])] }
